import Mathlib

/-!
Verification development for the port-alias resolution utilities of the
sonic-mgmt repository (`ansible/module_utils/port_utils.py`).

The Python module is shallowly embedded below.  Conventions used throughout:

* Python `dict` values are modelled as association lists (`PyDict`) together
  with `dinsert`, which reproduces Python dictionary assignment `d[k] = v`:
  when the key is present its value is updated in place (keeping its
  position), otherwise the pair is appended.
* Python integers are modelled as `Int`; the module is Python-2 code (it
  concatenates `range` objects on line 97 and relies on `/` being integer
  division), so `/` is modelled by integer division, which on the
  non-negative operands occurring here agrees with Lean's `Int` division.
* `"%d" % i` (and `"{}".format(i)`) is modelled by `intStr`, a decimal
  formatter for `Int` written by structural recursion so that it evaluates
  inside the kernel; its injectivity is proved below.
* The metadata-driven path of `get_port_alias_to_name_map` reads the port
  table from an external service (`multi_asic.get_port_table`); the
  embedding takes that table (or `none`, for the `ImportError` case in
  which the static fallback runs) as an explicit argument.
-/

/-! ## Python dictionaries as association lists -/

abbrev PyDict (α : Type) := List (String × α)

/-- `k in d` for a Python dict: is the key present? -/
def hasKey {α : Type} (m : PyDict α) (k : String) : Bool :=
  m.any (fun p => p.1 == k)

/-- Python dictionary assignment `d[k] = v`: update in place when the key is
present, otherwise append the new binding. -/
def dinsert {α : Type} (m : PyDict α) (k : String) (v : α) : PyDict α :=
  if hasKey m k then m.map (fun p => if p.1 == k then (k, v) else p)
  else m ++ [(k, v)]

/-- Python dictionary lookup `d.get(k)`. -/
def dget? {α : Type} (m : PyDict α) (k : String) : Option α :=
  match m with
  | [] => none
  | p :: rest => if p.1 == k then some p.2 else dget? rest k

@[simp] theorem hasKey_nil {α : Type} (k : String) :
    hasKey ([] : PyDict α) k = false := rfl

@[simp] theorem hasKey_cons {α : Type} (p : String × α) (m : PyDict α) (k : String) :
    hasKey (p :: m) k = (p.1 == k || hasKey m k) := by
  simp [hasKey]

@[simp] theorem dget?_nil {α : Type} (k : String) :
    dget? ([] : PyDict α) k = none := rfl

@[simp] theorem dget?_cons {α : Type} (p : String × α) (m : PyDict α) (k : String) :
    dget? (p :: m) k = if p.1 == k then some p.2 else dget? m k := rfl

theorem dget?_map_upd {α : Type} (m : PyDict α) (k : String) (v : α)
    (h : hasKey m k = true) :
    dget? (m.map (fun p => if p.1 == k then (k, v) else p)) k = some v := by
  induction m with
  | nil => simp at h
  | cons p rest ih =>
    by_cases hp : p.1 = k
    · simp [hp]
    · have h' : hasKey rest k = true := by
        simp [hp] at h
        exact h
      simp [hp]
      simpa using ih h'

theorem dget?_map_upd_ne {α : Type} (m : PyDict α) (k : String) (v : α)
    (k' : String) (h : k' ≠ k) :
    dget? (m.map (fun p => if p.1 == k then (k, v) else p)) k' = dget? m k' := by
  have h' : k ≠ k' := fun hc => h hc.symm
  induction m with
  | nil => simp
  | cons p rest ih =>
    by_cases hp : p.1 = k
    · have hp' : ¬ (p.1 = k') := by rw [hp]; exact h'
      simp [hp, h', hp']
      simpa using ih
    · by_cases hq : p.1 = k'
      · simp [hp, hq, h]
      · simp [hp, hq]
        simpa using ih

theorem dget?_append_single {α : Type} (m : PyDict α) (k : String) (v : α)
    (h : hasKey m k = false) :
    dget? (m ++ [(k, v)]) k = some v := by
  induction m with
  | nil => simp
  | cons p rest ih =>
    simp only [hasKey_cons, Bool.or_eq_false_iff] at h
    have hp : ¬ (p.1 = k) := by
      intro hc
      simp [hc] at h
    simp [hp, ih h.2]

theorem dget?_append_single_ne {α : Type} (m : PyDict α) (k : String) (v : α)
    (k' : String) (h : k' ≠ k) :
    dget? (m ++ [(k, v)]) k' = dget? m k' := by
  have h' : k ≠ k' := fun hc => h hc.symm
  induction m with
  | nil => simp [h']
  | cons p rest ih =>
    by_cases hp : p.1 = k'
    · simp [hp]
    · simp [hp]
      exact ih

theorem dget?_dinsert_self {α : Type} (m : PyDict α) (k : String) (v : α) :
    dget? (dinsert m k v) k = some v := by
  unfold dinsert
  by_cases h : hasKey m k = true
  · rw [if_pos h]
    exact dget?_map_upd m k v h
  · rw [if_neg h]
    exact dget?_append_single m k v (by simpa using h)

theorem dget?_dinsert_ne {α : Type} (m : PyDict α) (k : String) (v : α)
    (k' : String) (h : k' ≠ k) :
    dget? (dinsert m k v) k' = dget? m k' := by
  unfold dinsert
  by_cases hk : hasKey m k = true
  · rw [if_pos hk]
    exact dget?_map_upd_ne m k v k' h
  · rw [if_neg hk]
    exact dget?_append_single_ne m k v k' h

theorem hasKey_map_upd {α : Type} (m : PyDict α) (k : String) (v : α)
    (x : String) :
    hasKey (m.map (fun p => if p.1 == k then (k, v) else p)) x = hasKey m x := by
  induction m with
  | nil => simp
  | cons p rest ih =>
    simp only [List.map_cons, hasKey_cons]
    have hx : ((if p.1 == k then (k, v) else p).1 == x) = (p.1 == x) := by
      by_cases hp : p.1 = k
      · simp [hp]
      · simp [hp]
    rw [hx, ih]

theorem hasKey_dinsert {α : Type} (m : PyDict α) (k : String) (v : α)
    (x : String) :
    hasKey (dinsert m k v) x = (hasKey m x || k == x) := by
  unfold dinsert
  by_cases hk : hasKey m k = true
  · rw [if_pos hk, hasKey_map_upd]
    by_cases hx : k = x
    · subst hx
      simp [hk]
    · simp [hx]
  · rw [if_neg hk]
    simp only [hasKey, List.any_append]
    simp

/-! ## Decimal formatting of Python integers (`"%d" % i`)

`natDigitsRev fuel n` lists the decimal digits of `n` least-significant
first, by structural recursion on a fuel argument (any `fuel ≥ n` gives the
full digit list), so that everything reduces inside the kernel. -/

def natDigitsRev : Nat → Nat → List Char
  | 0, _ => []
  | _ + 1, 0 => []
  | fuel + 1, n + 1 =>
    Nat.digitChar ((n + 1) % 10) :: natDigitsRev fuel ((n + 1) / 10)

/-- Decimal representation of a natural number, as produced by Python's
`"%d"` formatting for non-negative values. -/
def natStr (n : Nat) : String :=
  if n = 0 then "0" else String.mk (natDigitsRev n n).reverse

/-- Decimal representation of a Python integer (`"%d" % i`). -/
def intStr (i : Int) : String :=
  if i < 0 then "-" ++ natStr i.natAbs else natStr i.natAbs

theorem natDigitsRev_fuel (f g n : Nat) (hf : n ≤ f) (hg : n ≤ g) :
    natDigitsRev f n = natDigitsRev g n := by
  induction f generalizing g n with
  | zero =>
    have : n = 0 := Nat.le_zero.mp hf
    subst this
    cases g with
    | zero => rfl
    | succ g => rfl
  | succ f ih =>
    cases n with
    | zero =>
      cases g with
      | zero => rfl
      | succ g => rfl
    | succ m =>
      cases g with
      | zero => exact absurd hg (by omega)
      | succ g =>
        simp only [natDigitsRev]
        have hdiv : (m + 1) / 10 ≤ m := by
          have := Nat.div_lt_self (Nat.succ_pos m) (by norm_num : 1 < 10)
          omega
        rw [ih g ((m + 1) / 10) (by omega) (by omega)]

theorem natDigitsRev_ne_nil (f n : Nat) (hf : n ≤ f) (hn : 0 < n) :
    natDigitsRev f n ≠ [] := by
  cases f with
  | zero => omega
  | succ f =>
    cases n with
    | zero => omega
    | succ m => simp [natDigitsRev]

theorem digitChar_inj_lt :
    ∀ a < 10, ∀ b < 10, Nat.digitChar a = Nat.digitChar b → a = b := by
  decide

theorem natDigitsRev_inj (f g n m : Nat) (hf : n ≤ f) (hg : m ≤ g)
    (h : natDigitsRev f n = natDigitsRev g m) : n = m := by
  induction f generalizing g n m with
  | zero =>
    have hn : n = 0 := Nat.le_zero.mp hf
    subst hn
    by_contra hne
    have hm : 0 < m := Nat.pos_of_ne_zero (fun hc => hne hc.symm)
    exact natDigitsRev_ne_nil g m hg hm (by rw [← h]; rfl)
  | succ f ih =>
    cases n with
    | zero =>
      by_contra hne
      have hm : 0 < m := Nat.pos_of_ne_zero (fun hc => hne hc.symm)
      exact natDigitsRev_ne_nil g m hg hm (by rw [← h]; rfl)
    | succ a =>
      cases m with
      | zero =>
        exfalso
        refine natDigitsRev_ne_nil (f + 1) (a + 1) hf (Nat.succ_pos a) ?_
        rw [h]
        cases g <;> rfl
      | succ b =>
        cases g with
        | zero => omega
        | succ g =>
          simp only [natDigitsRev] at h
          injection h with h1 h2
          have hmod : (a + 1) % 10 = (b + 1) % 10 :=
            digitChar_inj_lt _ (Nat.mod_lt _ (by norm_num)) _
              (Nat.mod_lt _ (by norm_num)) h1
          have hdiva : (a + 1) / 10 ≤ f := by
            have := Nat.div_lt_self (Nat.succ_pos a) (by norm_num : 1 < 10)
            omega
          have hdivb : (b + 1) / 10 ≤ g := by
            have := Nat.div_lt_self (Nat.succ_pos b) (by norm_num : 1 < 10)
            omega
          have hdiv : (a + 1) / 10 = (b + 1) / 10 := ih g _ _ hdiva hdivb h2
          omega

theorem natStr_inj (n m : Nat) (h : natStr n = natStr m) : n = m := by
  have data_eq := congrArg String.data h
  by_cases hn : n = 0 <;> by_cases hm : m = 0
  · omega
  · exfalso
    subst hn
    simp only [natStr, if_pos rfl, if_neg hm] at data_eq
    have hrev : natDigitsRev m m = ['0'] := by
      have : (natDigitsRev m m).reverse = ['0'] := by
        rw [← data_eq]; rfl
      have := congrArg List.reverse this
      simpa using this
    obtain ⟨m', rfl⟩ : ∃ m', m = m' + 1 := ⟨m - 1, by omega⟩
    simp only [natDigitsRev] at hrev
    injection hrev with h1 h2
    have hmod : (m' + 1) % 10 = 0 := by
      have : Nat.digitChar 0 = '0' := rfl
      exact digitChar_inj_lt _ (Nat.mod_lt _ (by norm_num)) 0 (by norm_num)
        (by rw [h1, this])
    have hdiv : (m' + 1) / 10 = 0 := by
      by_contra hc
      refine natDigitsRev_ne_nil m' ((m' + 1) / 10) ?_ (Nat.pos_of_ne_zero hc) h2
      have := Nat.div_lt_self (Nat.succ_pos m') (by norm_num : 1 < 10)
      omega
    omega
  · exfalso
    subst hm
    simp only [natStr, if_pos rfl, if_neg hn] at data_eq
    have hrev : natDigitsRev n n = ['0'] := by
      have : (natDigitsRev n n).reverse = ['0'] := by
        rw [data_eq]; rfl
      have := congrArg List.reverse this
      simpa using this
    obtain ⟨n', rfl⟩ : ∃ n', n = n' + 1 := ⟨n - 1, by omega⟩
    simp only [natDigitsRev] at hrev
    injection hrev with h1 h2
    have hmod : (n' + 1) % 10 = 0 := by
      have : Nat.digitChar 0 = '0' := rfl
      exact digitChar_inj_lt _ (Nat.mod_lt _ (by norm_num)) 0 (by norm_num)
        (by rw [h1, this])
    have hdiv : (n' + 1) / 10 = 0 := by
      by_contra hc
      refine natDigitsRev_ne_nil n' ((n' + 1) / 10) ?_ (Nat.pos_of_ne_zero hc) h2
      have := Nat.div_lt_self (Nat.succ_pos n') (by norm_num : 1 < 10)
      omega
    omega
  · simp only [natStr, if_neg hn, if_neg hm] at data_eq
    have hrev : (natDigitsRev n n).reverse = (natDigitsRev m m).reverse :=
      data_eq
    have hlists : natDigitsRev n n = natDigitsRev m m := by
      have := congrArg List.reverse hrev
      simpa using this
    exact natDigitsRev_inj n m n m le_rfl le_rfl hlists

theorem natDigitsRev_chars (f n : Nat) :
    ∀ c ∈ natDigitsRev f n, ∃ d, d < 10 ∧ c = Nat.digitChar d := by
  induction f generalizing n with
  | zero => simp [natDigitsRev]
  | succ f ih =>
    cases n with
    | zero => simp [natDigitsRev]
    | succ a =>
      intro c hc
      simp only [natDigitsRev, List.mem_cons] at hc
      rcases hc with hc | hc
      · exact ⟨(a + 1) % 10, Nat.mod_lt _ (by norm_num), hc⟩
      · exact ih _ c hc

theorem digitChar_ne_dash : ∀ d < 10, Nat.digitChar d ≠ '-' := by
  decide

theorem natStr_no_dash (n : Nat) : ∀ c ∈ (natStr n).data, c ≠ '-' := by
  by_cases hn : n = 0
  · subst hn
    decide
  · have hs : natStr n = String.mk (natDigitsRev n n).reverse := by
      unfold natStr
      rw [if_neg hn]
    rw [hs]
    intro c hc
    have hc' : c ∈ natDigitsRev n n := (List.mem_reverse).mp hc
    obtain ⟨d, hd, rfl⟩ := natDigitsRev_chars n n c hc'
    exact digitChar_ne_dash d hd

theorem intStr_inj (a b : Int) (h : intStr a = intStr b) : a = b := by
  unfold intStr at h
  by_cases ha : a < 0 <;> by_cases hb : b < 0
  · rw [if_pos ha, if_pos hb] at h
    have hd : '-' :: (natStr a.natAbs).data = '-' :: (natStr b.natAbs).data :=
      congrArg String.data h
    have hdata : (natStr a.natAbs).data = (natStr b.natAbs).data :=
      List.tail_eq_of_cons_eq hd
    have := natStr_inj _ _ (String.ext hdata)
    omega
  · exfalso
    rw [if_pos ha, if_neg hb] at h
    have hd : '-' :: (natStr a.natAbs).data = (natStr b.natAbs).data :=
      congrArg String.data h
    have : '-' ∈ (natStr b.natAbs).data := by
      rw [← hd]
      exact List.mem_cons_self _ _
    exact natStr_no_dash _ '-' this rfl
  · exfalso
    rw [if_neg ha, if_pos hb] at h
    have hd : '-' :: (natStr b.natAbs).data = (natStr a.natAbs).data :=
      (congrArg String.data h).symm
    have : '-' ∈ (natStr a.natAbs).data := by
      rw [← hd]
      exact List.mem_cons_self _ _
    exact natStr_no_dash _ '-' this rfl
  · rw [if_neg ha, if_neg hb] at h
    have := natStr_inj _ _ h
    omega

/-! ## Remaining Python primitives -/

/-- Python `range(start, stop, step)` for positive `step`. -/
def pyRange (start stop step : Int) : List Int :=
  (List.range ((stop - start + step - 1) / step).toNat).map
    (fun k => start + step * Int.ofNat k)

/-- Auxiliary: is `pat` an initial segment of `s`? -/
def isPre : List Char → List Char → Bool
  | [], _ => true
  | _ :: _, [] => false
  | a :: as, b :: bs => a == b && isPre as bs

/-- Auxiliary: does `pat` occur contiguously inside `s`? -/
def isSub (pat : List Char) : List Char → Bool
  | [] => pat.isEmpty
  | c :: rest => isPre pat (c :: rest) || isSub pat rest

/-- Python's substring test `pat in s`. -/
def strIn (pat s : String) : Bool := isSub pat.data s.data

/-- Python `enumerate(xs, start)` (with an `Int` counter). -/
def pyEnumFrom {α : Type} (start : Int) : List α → List (Int × α)
  | [] => []
  | x :: xs => (start, x) :: pyEnumFrom (start + 1) xs

/-- Python set difference `list(set(xs) - set(ys))`.  A Python set iterates
in an unspecified order; this model keeps the order induced by `xs`. -/
def pySetDiff (xs ys : List Int) : List Int :=
  (xs.filter (fun i => !ys.contains i)).dedup

/-! ## Embedding of `ansible/module_utils/port_utils.py`

Each branch of the static SKU dispatch (lines 33-218 of the source) is a
named definition; `get_port_alias_to_name_map_fallback` is the `elif`
chain itself, in source order, including the duplicated
`INGRASYS-S9100-C32` condition. -/

/-- `_port_alias_to_name_map_50G` (source lines 1-13). -/
def _port_alias_to_name_map_50G (all_ports s100G_ports : List Int) : PyDict String :=
  let s50G_ports := pySetDiff all_ports s100G_ports
  let new_map : PyDict String := []
  let new_map := s50G_ports.foldl (fun m i =>
    dinsert (dinsert m ("Ethernet" ++ intStr i ++ "/1")
        ("Ethernet" ++ intStr ((i - 1) * 4)))
      ("Ethernet" ++ intStr i ++ "/3") ("Ethernet" ++ intStr ((i - 1) * 4 + 2)))
    new_map
  s100G_ports.foldl (fun m i =>
    dinsert m ("Ethernet" ++ intStr i ++ "/1") ("Ethernet" ++ intStr ((i - 1) * 4)))
    new_map

/-- Source lines 33-35. -/
def map_Force10_S6000 : PyDict String :=
  (pyRange 0 128 4).foldl (fun m i =>
    dinsert m ("fortyGigE0/" ++ intStr i) ("Ethernet" ++ intStr i)) []

/-- Source lines 36-39. -/
def map_Force10_S6100 : PyDict String :=
  (pyRange 0 4 1).foldl (fun m i =>
    (pyRange 0 16 1).foldl (fun m j =>
      dinsert m ("fortyGigE1/" ++ intStr (i + 1) ++ "/" ++ intStr (j + 1))
        ("Ethernet" ++ intStr (i * 16 + j))) m) []

/-- Source lines 40-42 (Python-2 `/` is integer division). -/
def map_Force10_Z9100 : PyDict String :=
  (pyRange 0 128 4).foldl (fun m i =>
    dinsert m ("hundredGigE1/" ++ intStr (i / 4 + 1)) ("Ethernet" ++ intStr i)) []

/-- Source lines 44-62. -/
def map_DellEMC_Z9332f_M_O16C64 : PyDict String :=
  let s100G_ports := pyRange 0 96 2 ++ pyRange 128 160 2
  let s400G_ports := pyRange 96 128 8 ++ pyRange 160 256 8
  let s10G_ports := pyRange 256 258 1
  let m := s100G_ports.foldl (fun m i =>
    dinsert m ("etp" ++ intStr ((i + 8) / 8)
        ++ String.singleton (Char.ofNat (97 + ((i / 2) % 4)).toNat))
      ("Ethernet" ++ intStr i)) []
  let m := s400G_ports.foldl (fun m i =>
    dinsert m ("etp" ++ intStr (i / 8 + 1)) ("Ethernet" ++ intStr i)) m
  s10G_ports.foldl (fun m i =>
    dinsert m ("etp" ++ intStr (if i == 256 then 33 else 34))
      ("Ethernet" ++ intStr i)) m

/-- Source lines 63-69. -/
def map_DellEMC_Z9332f_O32 : PyDict String :=
  let m := (pyRange 0 256 8).foldl (fun m i =>
    dinsert m ("etp" ++ intStr (i / 8 + 1)) ("Ethernet" ++ intStr i)) []
  (pyRange 256 258 1).foldl (fun m i =>
    dinsert m ("etp" ++ intStr (if i == 256 then 33 else 34))
      ("Ethernet" ++ intStr i)) m

/-- Source lines 70-74. -/
def map_Arista_7050_QX32 : PyDict String :=
  let m := (pyRange 1 25 1).foldl (fun m i =>
    dinsert m ("Ethernet" ++ intStr i ++ "/1")
      ("Ethernet" ++ intStr ((i - 1) * 4))) []
  (pyRange 25 33 1).foldl (fun m i =>
    dinsert m ("Ethernet" ++ intStr i) ("Ethernet" ++ intStr ((i - 1) * 4))) m

/-- Source lines 75-81. -/
def map_Arista_7050_QX_32S : PyDict String :=
  let m := (pyRange 0 4 1).foldl (fun m i =>
    dinsert m ("Ethernet1/" ++ intStr (i + 1)) ("Ethernet" ++ intStr i)) []
  let m := (pyRange 6 29 1).foldl (fun m i =>
    dinsert m ("Ethernet" ++ intStr i ++ "/1")
      ("Ethernet" ++ intStr ((i - 5) * 4))) m
  (pyRange 29 37 1).foldl (fun m i =>
    dinsert m ("Ethernet" ++ intStr i) ("Ethernet" ++ intStr ((i - 5) * 4))) m

/-- Source lines 82-87. -/
def map_Arista_7280CR3_C40 : PyDict String :=
  let m := (pyRange 1 33 1).foldl (fun m i =>
    dinsert m ("Ethernet" ++ intStr i ++ "/1")
      ("Ethernet" ++ intStr ((i - 1) * 4))) []
  (pyRange 33 41 2).foldl (fun m i =>
    dinsert (dinsert m ("Ethernet" ++ intStr i ++ "/1")
        ("Ethernet" ++ intStr ((i - 1) * 4)))
      ("Ethernet" ++ intStr i ++ "/5") ("Ethernet" ++ intStr (i * 4))) m

/-- The repeated loop `Ethernet<i>/1 -> Ethernet<(i-1)*4>` over
`range(lo, hi)` (source lines 88-94, 147-150, 202-207 share this shape). -/
def ethSlash1Map (lo hi : Int) : PyDict String :=
  (pyRange lo hi 1).foldl (fun m i =>
    dinsert m ("Ethernet" ++ intStr i ++ "/1")
      ("Ethernet" ++ intStr ((i - 1) * 4))) []

/-- Source lines 95-113 (Python 2: `range(0, 4) + range(8, 12)`). -/
def map_Mellanox_SN2700_D40C8S8 : PyDict String :=
  let s10G_ports := pyRange 0 4 1 ++ pyRange 8 12 1
  let s50G_ports := pyRange 16 24 2 ++ pyRange 40 88 2 ++ pyRange 104 128 2
  let s100G_ports := pyRange 24 40 4 ++ pyRange 88 104 4
  let m := s10G_ports.foldl (fun m i =>
    dinsert m ("etp" ++ intStr (i / 4 + 1)
        ++ String.singleton (Char.ofNat (97 + (i % 4)).toNat))
      ("Ethernet" ++ intStr i)) []
  let m := s50G_ports.foldl (fun m i =>
    dinsert m ("etp" ++ intStr (i / 4 + 1) ++ (if i % 4 == 0 then "a" else "b"))
      ("Ethernet" ++ intStr i)) m
  s100G_ports.foldl (fun m i =>
    dinsert m ("etp" ++ intStr (i / 4 + 1)) ("Ethernet" ++ intStr i)) m

/-- Source lines 114-126. -/
def map_Mellanox_SN2700_D48C8 : PyDict String :=
  let s50G_ports := pyRange 0 24 2 ++ pyRange 40 88 2 ++ pyRange 104 128 2
  let s100G_ports := pyRange 24 40 4 ++ pyRange 88 104 4
  let m := s50G_ports.foldl (fun m i =>
    dinsert m ("etp" ++ intStr (i / 4 + 1) ++ (if i % 4 == 0 then "a" else "b"))
      ("Ethernet" ++ intStr i)) []
  s100G_ports.foldl (fun m i =>
    dinsert m ("etp" ++ intStr (i / 4 + 1)) ("Ethernet" ++ intStr i)) m

/-- Source lines 127-129. -/
def map_Mellanox_SN2700 : PyDict String :=
  (pyRange 1 33 1).foldl (fun m i =>
    dinsert m ("etp" ++ intStr i) ("Ethernet" ++ intStr ((i - 1) * 4))) []

/-- Source lines 130-138. -/
def map_Arista_7060CX_32S_D48C8 : PyDict String :=
  let all_ports := pyRange 1 33 1
  let s100G_ports := pyRange 7 11 1 ++ pyRange 23 27 1
  _port_alias_to_name_map_50G all_ports s100G_ports

/-- Source lines 139-146. -/
def map_Arista_7260CX3_D108C8 : PyDict String :=
  let all_ports := pyRange 1 65 1
  let s100G_ports := pyRange 13 21 1
  _port_alias_to_name_map_50G all_ports s100G_ports

/-- Source lines 151-153: first `INGRASYS-S9100-C32` branch. -/
def map_INGRASYS_S9100_C32 : PyDict String :=
  (pyRange 1 33 1).foldl (fun m i =>
    dinsert m ("Ethernet" ++ intStr i ++ "/1")
      ("Ethernet" ++ intStr ((i - 1) * 4))) []

/-- Source lines 154-156: the duplicated (unreachable for
`INGRASYS-S9100-C32`) second branch, shared with `INGRASYS-S9130-32X` and
`INGRASYS-S8810-32Q`. -/
def map_INGRASYS_S9100_C32_dup : PyDict String :=
  (pyRange 1 33 1).foldl (fun m i =>
    dinsert m ("Ethernet" ++ intStr i ++ "/1")
      ("Ethernet" ++ intStr ((i - 1) * 4))) []

/-- Source lines 157-161. -/
def map_INGRASYS_S8900_54XC : PyDict String :=
  let m := (pyRange 1 49 1).foldl (fun m i =>
    dinsert m ("Ethernet" ++ intStr i) ("Ethernet" ++ intStr (i - 1))) []
  (pyRange 49 55 1).foldl (fun m i =>
    dinsert m ("Ethernet" ++ intStr i ++ "/1")
      ("Ethernet" ++ intStr ((i - 49) * 4 + 48))) m

/-- Source lines 162-166. -/
def map_INGRASYS_S8900_64XC : PyDict String :=
  let m := (pyRange 1 49 1).foldl (fun m i =>
    dinsert m ("Ethernet" ++ intStr i) ("Ethernet" ++ intStr (i - 1))) []
  (pyRange 49 65 1).foldl (fun m i =>
    dinsert m ("Ethernet" ++ intStr i ++ "/1")
      ("Ethernet" ++ intStr ((i - 49) * 4 + 48))) m

/-- Source lines 167-169. -/
def map_Accton_AS7712_32X : PyDict String :=
  (pyRange 1 33 1).foldl (fun m i =>
    dinsert m ("hundredGigE" ++ intStr i) ("Ethernet" ++ intStr ((i - 1) * 4))) []

/-- Source lines 170-172. -/
def map_Celestica_DX010_C32 : PyDict String :=
  (pyRange 1 33 1).foldl (fun m i =>
    dinsert m ("etp" ++ intStr i) ("Ethernet" ++ intStr ((i - 1) * 4))) []

/-- Source lines 173-175. -/
def map_Seastone_DX010 : PyDict String :=
  (pyRange 1 33 1).foldl (fun m i =>
    dinsert m ("Eth" ++ intStr i) ("Ethernet" ++ intStr ((i - 1) * 4))) []

/-- Source lines 176-178. -/
def map_Celestica_E1031_T48S4 : PyDict String :=
  (pyRange 1 53 1).foldl (fun m i =>
    dinsert m ("etp" ++ intStr i) ("Ethernet" ++ intStr (i - 1))) []

/-- The identity-alias loop `Ethernet<i> -> Ethernet<i>` over
`range(lo, hi, step)` (source lines 179-201, 216-218 share this shape). -/
def ethIdentityMap (lo hi step : Int) : PyDict String :=
  (pyRange lo hi step).foldl (fun m i =>
    dinsert m ("Ethernet" ++ intStr i) ("Ethernet" ++ intStr i)) []

/-- Source lines 202-204. -/
def map_msft_multi_asic_vs : PyDict String :=
  (pyRange 1 65 1).foldl (fun m i =>
    dinsert m ("Ethernet1/" ++ intStr i) ("Ethernet" ++ intStr ((i - 1) * 4))) []

/-- Source lines 205-207. -/
def map_msft_four_asic_vs : PyDict String :=
  (pyRange 1 9 1).foldl (fun m i =>
    dinsert m ("Ethernet1/" ++ intStr i) ("Ethernet" ++ intStr ((i - 1) * 4))) []

/-- Source lines 208-212. -/
def map_B6510_48VS8CQ : PyDict String :=
  let m := (pyRange 1 49 1).foldl (fun m i =>
    dinsert m ("twentyfiveGigE0/" ++ intStr i) ("Ethernet" ++ intStr i)) []
  (pyRange 49 57 1).foldl (fun m i =>
    dinsert m ("hundredGigE0/" ++ intStr (i - 48)) ("Ethernet" ++ intStr i)) m

/-- Source lines 213-215. -/
def map_RA_B6910_64C : PyDict String :=
  (pyRange 1 65 1).foldl (fun m i =>
    dinsert m ("hundredGigE" ++ intStr i) ("Ethernet" ++ intStr i)) []

/-- The static-table fallback of `get_port_alias_to_name_map` (source lines
33-218): the `elif` chain on `hwsku`, in source order, including the dead
duplicate `INGRASYS-S9100-C32` condition on line 154. -/
def get_port_alias_to_name_map_fallback (hwsku : String) : PyDict String :=
  if hwsku = "Force10-S6000" then map_Force10_S6000
  else if hwsku = "Force10-S6100" then map_Force10_S6100
  else if hwsku = "Force10-Z9100" then map_Force10_Z9100
  else if hwsku = "DellEMC-Z9332f-M-O16C64" then map_DellEMC_Z9332f_M_O16C64
  else if hwsku = "DellEMC-Z9332f-O32" then map_DellEMC_Z9332f_O32
  else if hwsku = "Arista-7050-QX32" then map_Arista_7050_QX32
  else if hwsku = "Arista-7050-QX-32S" then map_Arista_7050_QX_32S
  else if hwsku = "Arista-7280CR3-C40" then map_Arista_7280CR3_C40
  else if hwsku = "Arista-7260CX3-C64" ∨ hwsku = "Arista-7170-64C"
      ∨ hwsku = "Arista-7260CX3-Q64" then ethSlash1Map 1 65
  else if hwsku = "Arista-7060CX-32S-C32" ∨ hwsku = "Arista-7060CX-32S-Q32"
      ∨ hwsku = "Arista-7060CX-32S-C32-T1" ∨ hwsku = "Arista-7170-32CD-C32"
      ∨ hwsku = "Arista-7050CX3-32S-C32" then ethSlash1Map 1 33
  else if hwsku = "Mellanox-SN2700-D40C8S8" then map_Mellanox_SN2700_D40C8S8
  else if hwsku = "Mellanox-SN2700-D48C8" then map_Mellanox_SN2700_D48C8
  else if hwsku = "Mellanox-SN2700" ∨ hwsku = "ACS-MSN2700" then map_Mellanox_SN2700
  else if hwsku = "Arista-7060CX-32S-D48C8" then map_Arista_7060CX_32S_D48C8
  else if hwsku = "Arista-7260CX3-D108C8" then map_Arista_7260CX3_D108C8
  else if hwsku = "Arista-7800R3-48CQ-LC"
      ∨ hwsku = "Arista-7800R3K-48CQ-LC" then ethSlash1Map 1 48
  else if hwsku = "INGRASYS-S9100-C32" then map_INGRASYS_S9100_C32
  else if hwsku = "INGRASYS-S9100-C32" ∨ hwsku = "INGRASYS-S9130-32X"
      ∨ hwsku = "INGRASYS-S8810-32Q" then map_INGRASYS_S9100_C32_dup
  else if hwsku = "INGRASYS-S8900-54XC" then map_INGRASYS_S8900_54XC
  else if hwsku = "INGRASYS-S8900-64XC" then map_INGRASYS_S8900_64XC
  else if hwsku = "Accton-AS7712-32X" then map_Accton_AS7712_32X
  else if hwsku = "Celestica-DX010-C32" then map_Celestica_DX010_C32
  else if hwsku = "Seastone-DX010" then map_Seastone_DX010
  else if hwsku ∈ ["Celestica-E1031-T48S4", "Nokia-7215", "Nokia-M0-7215"] then
    map_Celestica_E1031_T48S4
  else if hwsku = "et6448m" then ethIdentityMap 0 52 1
  else if hwsku = "Nokia-IXR7250E-36x400G" then ethIdentityMap 0 36 1
  else if hwsku = "Nokia-IXR7250E-SUP-10" then ([] : PyDict String)
  else if hwsku = "newport" then ethIdentityMap 0 256 8
  else if hwsku = "32x100Gb" then ethIdentityMap 0 32 1
  else if hwsku = "36x100Gb" then ethIdentityMap 0 36 1
  else if hwsku = "64x100Gb" then ethIdentityMap 0 64 1
  else if hwsku ∈ ["8800-LC-48H-O", "88-LC0-36FH-MO"] then ethIdentityMap 0 48 1
  else if hwsku ∈ ["msft_multi_asic_vs"] then map_msft_multi_asic_vs
  else if hwsku = "msft_four_asic_vs" then map_msft_four_asic_vs
  else if hwsku = "B6510-48VS8CQ" ∨ hwsku = "RA-B6510-48V8C" then map_B6510_48VS8CQ
  else if hwsku = "RA-B6910-64C" then map_RA_B6910_64C
  else ethIdentityMap 0 128 4

/-- Every hwsku string that has its own branch in the static-table catalog
(every string literal compared against `hwsku` on source lines 33-215). -/
def staticCatalogSKUs : List String :=
  ["Force10-S6000", "Force10-S6100", "Force10-Z9100",
   "DellEMC-Z9332f-M-O16C64", "DellEMC-Z9332f-O32",
   "Arista-7050-QX32", "Arista-7050-QX-32S", "Arista-7280CR3-C40",
   "Arista-7260CX3-C64", "Arista-7170-64C", "Arista-7260CX3-Q64",
   "Arista-7060CX-32S-C32", "Arista-7060CX-32S-Q32",
   "Arista-7060CX-32S-C32-T1", "Arista-7170-32CD-C32",
   "Arista-7050CX3-32S-C32", "Mellanox-SN2700-D40C8S8",
   "Mellanox-SN2700-D48C8", "Mellanox-SN2700", "ACS-MSN2700",
   "Arista-7060CX-32S-D48C8", "Arista-7260CX3-D108C8",
   "Arista-7800R3-48CQ-LC", "Arista-7800R3K-48CQ-LC",
   "INGRASYS-S9100-C32", "INGRASYS-S9130-32X", "INGRASYS-S8810-32Q",
   "INGRASYS-S8900-54XC", "INGRASYS-S8900-64XC", "Accton-AS7712-32X",
   "Celestica-DX010-C32", "Seastone-DX010", "Celestica-E1031-T48S4",
   "Nokia-7215", "Nokia-M0-7215", "et6448m", "Nokia-IXR7250E-36x400G",
   "Nokia-IXR7250E-SUP-10", "newport", "32x100Gb", "36x100Gb", "64x100Gb",
   "8800-LC-48H-O", "88-LC0-36FH-MO", "msft_multi_asic_vs",
   "msft_four_asic_vs", "B6510-48VS8CQ", "RA-B6510-48V8C", "RA-B6910-64C"]

/-- One record of the external port table: the optional fields read by the
metadata-driven path (`alias`, `asic_port_name`, `index`; the string value
of `index` is already converted by `int(...)`). -/
structure PortData where
  aliasF : Option String
  asic_port_name : Option String
  index : Option Int

/-- Source line 19. -/
def HWSKU_WITH_PORT_INDEX_FROM_PORT_CONFIG : List String :=
  ["8800-LC-48H-O", "88-LC0-36FH-MO"]

/-- One iteration of the metadata-path loop (source lines 25-31) applied to
the triple of maps being built. -/
def portsInfoStep (hwsku : String)
    (maps : PyDict String × PyDict String × PyDict Int)
    (r : String × PortData) :
    PyDict String × PyDict String × PyDict Int :=
  let m1 := match r.2.aliasF with
    | some a => dinsert maps.1 a r.1
    | none => maps.1
  let m2 := match r.2.asic_port_name with
    | some a => dinsert maps.2.1 a r.1
    | none => maps.2.1
  let m3 := match r.2.index with
    | some idx =>
      if hwsku ∈ HWSKU_WITH_PORT_INDEX_FROM_PORT_CONFIG then dinsert maps.2.2 r.1 idx
      else maps.2.2
    | none => maps.2.2
  (m1, m2, m3)

/-- The metadata-driven path (source lines 20-31), given the port table
returned by the external service. -/
def get_port_alias_to_name_map_metadata (hwsku : String)
    (ports_info : List (String × PortData)) :
    PyDict String × PyDict String × PyDict Int :=
  ports_info.foldl (portsInfoStep hwsku) ([], [], [])

/-- `get_port_alias_to_name_map(hwsku, asic_name)` (source lines 15-220).
`ports_info` is the port table of the external service, or `none` when the
module import fails (`ImportError`) and the static fallback runs; `asic_name` is
consumed only by that external service, so it is unused once the table is
given. -/
def get_port_alias_to_name_map (ports_info : Option (List (String × PortData)))
    (hwsku : String) (asic_name : Option String) :
    PyDict String × PyDict String × PyDict Int :=
  match ports_info, asic_name with
  | some info, _ => get_port_alias_to_name_map_metadata hwsku info
  | none, _ => (get_port_alias_to_name_map_fallback hwsku, [], [])

/-- Python truthiness of the optional `asic_id` argument. -/
def pyTruthy : Option Int → Bool
  | none => false
  | some a => !(a == 0)

/-- `get_port_indices_for_asic(asic_id, port_name_list_sorted)` (source
lines 223-236). -/
def get_port_indices_for_asic (asic_id : Option Int)
    (port_name_list_sorted : List String) : PyDict Int :=
  let front_end_port_name_list := port_name_list_sorted.filter (fun p => !strIn "BP" p)
  let back_end_port_name_list := port_name_list_sorted.filter (fun p => strIn "BP" p)
  let index_offset : Int :=
    if pyTruthy asic_id then
      asic_id.getD 0 * (front_end_port_name_list.length : Int)
    else 0
  let port_index_map : PyDict Int := []
  let port_index_map := (pyEnumFrom index_offset front_end_port_name_list).foldl
    (fun m p => dinsert m p.2 p.1) port_index_map
  let port_index_map := (pyEnumFrom index_offset back_end_port_name_list).foldl
    (fun m p => dinsert m p.2 p.1) port_index_map
  port_index_map

/-! ## The canonical-name pattern `Ethernet<N>` -/

/-- Does `s` match `Ethernet<N>` with `N` a non-negative integer (i.e. a
non-empty digit string)? -/
def isEthernetName (s : String) : Bool :=
  isPre "Ethernet".data s.data
    && !(s.data.drop 8).isEmpty
    && (s.data.drop 8).all (fun c => c.isDigit)

theorem isPre_append (xs ys : List Char) : isPre xs (xs ++ ys) = true := by
  induction xs with
  | nil => rfl
  | cons a as ih => simp [isPre, ih]

theorem natStr_chars (n : Nat) :
    ∀ c ∈ (natStr n).data, ∃ d, d < 10 ∧ c = Nat.digitChar d := by
  by_cases hn : n = 0
  · subst hn
    intro c hc
    have h0 : (natStr 0).data = ['0'] := rfl
    rw [h0] at hc
    have : c = '0' := by simpa using hc
    exact ⟨0, by norm_num, by rw [this]; rfl⟩
  · have hs : natStr n = String.mk (natDigitsRev n n).reverse := by
      unfold natStr
      rw [if_neg hn]
    rw [hs]
    intro c hc
    exact natDigitsRev_chars n n c ((List.mem_reverse).mp hc)

theorem natStr_data_ne_nil (n : Nat) : (natStr n).data ≠ [] := by
  by_cases hn : n = 0
  · subst hn
    decide
  · have hs : natStr n = String.mk (natDigitsRev n n).reverse := by
      unfold natStr
      rw [if_neg hn]
    rw [hs]
    intro hc
    have : natDigitsRev n n = [] := by
      have := congrArg List.reverse hc
      simpa using this
    exact natDigitsRev_ne_nil n n le_rfl (Nat.pos_of_ne_zero hn) this

theorem digitChar_isDigit : ∀ d < 10, (Nat.digitChar d).isDigit = true := by
  decide

theorem isEthernetName_ethName (n : Int) (hn : 0 ≤ n) :
    isEthernetName ("Ethernet" ++ intStr n) = true := by
  have hint : intStr n = natStr n.natAbs := by
    unfold intStr
    rw [if_neg (by omega)]
  have hdata : ("Ethernet" ++ intStr n).data
      = "Ethernet".data ++ (intStr n).data := rfl
  unfold isEthernetName
  rw [hdata]
  have hlen : ("Ethernet".data).length = 8 := rfl
  have hdrop : ("Ethernet".data ++ (intStr n).data).drop 8 = (intStr n).data := by
    rw [← hlen]
    exact List.drop_left _ _
  rw [hdrop, isPre_append]
  have h1 : ((intStr n).data).isEmpty = false := by
    rw [hint]
    cases hd : (natStr n.natAbs).data with
    | nil => exact absurd hd (natStr_data_ne_nil _)
    | cons c cs => simp
  have h2 : ((intStr n).data).all (fun c => c.isDigit) = true := by
    rw [List.all_eq_true]
    intro c hc
    rw [hint] at hc
    obtain ⟨d, hd, rfl⟩ := natStr_chars _ c hc
    exact digitChar_isDigit d hd
  rw [h1, h2]
  rfl

/-! ## Generic fold invariants for dictionary-building loops -/

theorem foldl_inv {α β : Type} (Q : α → Prop) (f : α → β → α) :
    ∀ (l : List β) (a : α), Q a → (∀ a b, b ∈ l → Q a → Q (f a b)) →
      Q (l.foldl f a) := by
  intro l
  induction l with
  | nil => intro a ha _; exact ha
  | cons b rest ih =>
    intro a ha hstep
    exact ih (f a b) (hstep a b (List.mem_cons_self b rest) ha)
      (fun a' b' hb' => hstep a' b' (List.mem_cons_of_mem b hb'))

theorem valP_dinsert {α : Type} (P : α → Prop) (m : PyDict α) (k : String)
    (v : α) (hm : ∀ p ∈ m, P p.2) (hv : P v) :
    ∀ p ∈ dinsert m k v, P p.2 := by
  unfold dinsert
  by_cases hk : hasKey m k = true
  · rw [if_pos hk]
    intro p hp
    obtain ⟨q, hq, rfl⟩ := List.mem_map.mp hp
    by_cases hq1 : q.1 = k
    · simp only [hq1]
      simp only [beq_self_eq_true, if_true]
      exact hv
    · have : (q.1 == k) = false := by simp [hq1]
      rw [this]
      simp only [Bool.false_eq_true, if_false]
      exact hm q hq
  · rw [if_neg hk]
    intro p hp
    rcases List.mem_append.mp hp with hp | hp
    · exact hm p hp
    · have : p = (k, v) := by simpa using hp
      rw [this]
      exact hv

theorem ne_nil_dinsert {α : Type} (m : PyDict α) (k : String) (v : α) :
    dinsert m k v ≠ [] := by
  unfold dinsert
  by_cases hk : hasKey m k = true
  · rw [if_pos hk]
    intro hc
    rw [List.map_eq_nil_iff] at hc
    subst hc
    simp at hk
  · rw [if_neg hk]
    simp

theorem foldl_dinsert_ne_nil {β : Type} (f : PyDict String → β → PyDict String)
    (l : List β) (m : PyDict String) (hcre : ∀ m b, f m b ≠ [])
    (hl : l ≠ []) : l.foldl f m ≠ [] := by
  cases l with
  | nil => exact absurd rfl hl
  | cons b rest =>
    exact foldl_inv (fun m => m ≠ []) f rest (f m b) (hcre m b)
      (fun a b' _ _ => hcre a b')

/-! ## Bounds for `pyRange` members -/

theorem pyRange_lower (lo hi s : Int) (hs : 0 ≤ s) :
    ∀ i ∈ pyRange lo hi s, lo ≤ i := by
  intro i hi
  unfold pyRange at hi
  obtain ⟨k, hk, rfl⟩ := List.mem_map.mp hi
  have hk0 : (0 : Int) ≤ Int.ofNat k := Int.natCast_nonneg k
  have : 0 ≤ s * Int.ofNat k := mul_nonneg hs hk0
  omega

theorem pySetDiff_subset (xs ys : List Int) : ∀ i ∈ pySetDiff xs ys, i ∈ xs := by
  intro i hi
  unfold pySetDiff at hi
  have := List.mem_dedup.mp hi
  exact (List.mem_filter.mp this).1

/-! ## Every static branch produces `Ethernet<N>` values -/

/-- All values of the map match `Ethernet<N>`. -/
abbrev EthVals (m : PyDict String) : Prop :=
  ∀ p ∈ m, isEthernetName p.2 = true

theorem EthVals_nil : EthVals [] := by
  intro p hp
  simp at hp

theorem EthVals_dinsert (m : PyDict String) (k : String) (n : Int)
    (hn : 0 ≤ n) (hm : EthVals m) :
    EthVals (dinsert m k ("Ethernet" ++ intStr n)) :=
  valP_dinsert (fun s => isEthernetName s = true) m k _ hm
    (isEthernetName_ethName n hn)

theorem EthVals_map_Force10_S6000 : EthVals map_Force10_S6000 := by
  refine foldl_inv EthVals _ _ _ EthVals_nil ?_
  intro m i hi hm
  exact EthVals_dinsert m _ i (pyRange_lower 0 128 4 (by norm_num) i hi) hm

theorem ne_nil_map_Force10_S6000 : map_Force10_S6000 ≠ [] := by
  unfold map_Force10_S6000
  exact foldl_dinsert_ne_nil _ _ _ (fun m b => ne_nil_dinsert _ _ _) (by decide)

theorem EthVals_map_Force10_S6100 : EthVals map_Force10_S6100 := by
  refine foldl_inv EthVals _ _ _ EthVals_nil ?_
  intro m i hi hm
  refine foldl_inv EthVals _ _ _ hm ?_
  intro m' j hj hm'
  have h1 := pyRange_lower 0 4 1 (by norm_num) i hi
  have h2 := pyRange_lower 0 16 1 (by norm_num) j hj
  exact EthVals_dinsert m' _ _ (by nlinarith) hm'

theorem ne_nil_map_Force10_S6100 : map_Force10_S6100 ≠ [] := by
  unfold map_Force10_S6100
  refine foldl_dinsert_ne_nil _ _ _ ?_ (by decide)
  intro m b
  exact foldl_dinsert_ne_nil _ _ _ (fun m' b' => ne_nil_dinsert _ _ _) (by decide)

theorem EthVals_map_Force10_Z9100 : EthVals map_Force10_Z9100 := by
  refine foldl_inv EthVals _ _ _ EthVals_nil ?_
  intro m i hi hm
  exact EthVals_dinsert m _ i (pyRange_lower 0 128 4 (by norm_num) i hi) hm

theorem ne_nil_map_Force10_Z9100 : map_Force10_Z9100 ≠ [] := by
  unfold map_Force10_Z9100
  exact foldl_dinsert_ne_nil _ _ _ (fun m b => ne_nil_dinsert _ _ _) (by decide)

theorem EthVals_map_DellEMC_Z9332f_M_O16C64 :
    EthVals map_DellEMC_Z9332f_M_O16C64 := by
  refine foldl_inv EthVals _ _ _ ?_ ?_
  · refine foldl_inv EthVals _ _ _ ?_ ?_
    · refine foldl_inv EthVals _ _ _ EthVals_nil ?_
      intro m i hi hm
      rcases List.mem_append.mp hi with h | h
      · exact EthVals_dinsert m _ i
          (by have := pyRange_lower 0 96 2 (by norm_num) i h; omega) hm
      · exact EthVals_dinsert m _ i
          (by have := pyRange_lower 128 160 2 (by norm_num) i h; omega) hm
    · intro m i hi hm
      rcases List.mem_append.mp hi with h | h
      · exact EthVals_dinsert m _ i
          (by have := pyRange_lower 96 128 8 (by norm_num) i h; omega) hm
      · exact EthVals_dinsert m _ i
          (by have := pyRange_lower 160 256 8 (by norm_num) i h; omega) hm
  · intro m i hi hm
    exact EthVals_dinsert m _ i
      (by have := pyRange_lower 256 258 1 (by norm_num) i hi; omega) hm

theorem ne_nil_map_DellEMC_Z9332f_M_O16C64 :
    map_DellEMC_Z9332f_M_O16C64 ≠ [] := by
  unfold map_DellEMC_Z9332f_M_O16C64
  exact foldl_dinsert_ne_nil _ _ _ (fun m b => ne_nil_dinsert _ _ _) (by decide)

theorem EthVals_map_DellEMC_Z9332f_O32 : EthVals map_DellEMC_Z9332f_O32 := by
  refine foldl_inv EthVals _ _ _ ?_ ?_
  · refine foldl_inv EthVals _ _ _ EthVals_nil ?_
    intro m i hi hm
    exact EthVals_dinsert m _ i (pyRange_lower 0 256 8 (by norm_num) i hi) hm
  · intro m i hi hm
    exact EthVals_dinsert m _ i
      (by have := pyRange_lower 256 258 1 (by norm_num) i hi; omega) hm

theorem ne_nil_map_DellEMC_Z9332f_O32 : map_DellEMC_Z9332f_O32 ≠ [] := by
  unfold map_DellEMC_Z9332f_O32
  exact foldl_dinsert_ne_nil _ _ _ (fun m b => ne_nil_dinsert _ _ _) (by decide)

theorem EthVals_map_Arista_7050_QX32 : EthVals map_Arista_7050_QX32 := by
  refine foldl_inv EthVals _ _ _ ?_ ?_
  · refine foldl_inv EthVals _ _ _ EthVals_nil ?_
    intro m i hi hm
    exact EthVals_dinsert m _ _
      (by have := pyRange_lower 1 25 1 (by norm_num) i hi; omega) hm
  · intro m i hi hm
    exact EthVals_dinsert m _ _
      (by have := pyRange_lower 25 33 1 (by norm_num) i hi; omega) hm

theorem ne_nil_map_Arista_7050_QX32 : map_Arista_7050_QX32 ≠ [] := by
  unfold map_Arista_7050_QX32
  exact foldl_dinsert_ne_nil _ _ _ (fun m b => ne_nil_dinsert _ _ _) (by decide)

theorem EthVals_map_Arista_7050_QX_32S : EthVals map_Arista_7050_QX_32S := by
  refine foldl_inv EthVals _ _ _ ?_ ?_
  · refine foldl_inv EthVals _ _ _ ?_ ?_
    · refine foldl_inv EthVals _ _ _ EthVals_nil ?_
      intro m i hi hm
      exact EthVals_dinsert m _ i (pyRange_lower 0 4 1 (by norm_num) i hi) hm
    · intro m i hi hm
      exact EthVals_dinsert m _ _
        (by have := pyRange_lower 6 29 1 (by norm_num) i hi; omega) hm
  · intro m i hi hm
    exact EthVals_dinsert m _ _
      (by have := pyRange_lower 29 37 1 (by norm_num) i hi; omega) hm

theorem ne_nil_map_Arista_7050_QX_32S : map_Arista_7050_QX_32S ≠ [] := by
  unfold map_Arista_7050_QX_32S
  exact foldl_dinsert_ne_nil _ _ _ (fun m b => ne_nil_dinsert _ _ _) (by decide)

theorem EthVals_map_Arista_7280CR3_C40 : EthVals map_Arista_7280CR3_C40 := by
  refine foldl_inv EthVals _ _ _ ?_ ?_
  · refine foldl_inv EthVals _ _ _ EthVals_nil ?_
    intro m i hi hm
    exact EthVals_dinsert m _ _
      (by have := pyRange_lower 1 33 1 (by norm_num) i hi; omega) hm
  · intro m i hi hm
    have hlo := pyRange_lower 33 41 2 (by norm_num) i hi
    exact EthVals_dinsert _ _ _ (by omega)
      (EthVals_dinsert m _ _ (by omega) hm)

theorem ne_nil_map_Arista_7280CR3_C40 : map_Arista_7280CR3_C40 ≠ [] := by
  unfold map_Arista_7280CR3_C40
  exact foldl_dinsert_ne_nil _ _ _
    (fun m b => ne_nil_dinsert _ _ _) (by decide)

theorem EthVals_ethSlash1Map (lo hi : Int) (hlo : 1 ≤ lo) :
    EthVals (ethSlash1Map lo hi) := by
  refine foldl_inv EthVals _ _ _ EthVals_nil ?_
  intro m i hi' hm
  exact EthVals_dinsert m _ _
    (by have := pyRange_lower lo hi 1 (by norm_num) i hi'; omega) hm

theorem ne_nil_ethSlash1Map (lo hi : Int) (h : pyRange lo hi 1 ≠ []) :
    ethSlash1Map lo hi ≠ [] := by
  unfold ethSlash1Map
  exact foldl_dinsert_ne_nil _ _ _ (fun m b => ne_nil_dinsert _ _ _) h

theorem EthVals_map_Mellanox_SN2700_D40C8S8 :
    EthVals map_Mellanox_SN2700_D40C8S8 := by
  refine foldl_inv EthVals _ _ _ ?_ ?_
  · refine foldl_inv EthVals _ _ _ ?_ ?_
    · refine foldl_inv EthVals _ _ _ EthVals_nil ?_
      intro m i hi hm
      rcases List.mem_append.mp hi with h | h
      · exact EthVals_dinsert m _ i (pyRange_lower 0 4 1 (by norm_num) i h) hm
      · exact EthVals_dinsert m _ i
          (by have := pyRange_lower 8 12 1 (by norm_num) i h; omega) hm
    · intro m i hi hm
      rcases List.mem_append.mp hi with h | h
      · rcases List.mem_append.mp h with h' | h'
        · exact EthVals_dinsert m _ i
            (by have := pyRange_lower 16 24 2 (by norm_num) i h'; omega) hm
        · exact EthVals_dinsert m _ i
            (by have := pyRange_lower 40 88 2 (by norm_num) i h'; omega) hm
      · exact EthVals_dinsert m _ i
          (by have := pyRange_lower 104 128 2 (by norm_num) i h; omega) hm
  · intro m i hi hm
    rcases List.mem_append.mp hi with h | h
    · exact EthVals_dinsert m _ i
        (by have := pyRange_lower 24 40 4 (by norm_num) i h; omega) hm
    · exact EthVals_dinsert m _ i
        (by have := pyRange_lower 88 104 4 (by norm_num) i h; omega) hm

theorem ne_nil_map_Mellanox_SN2700_D40C8S8 :
    map_Mellanox_SN2700_D40C8S8 ≠ [] := by
  unfold map_Mellanox_SN2700_D40C8S8
  exact foldl_dinsert_ne_nil _ _ _ (fun m b => ne_nil_dinsert _ _ _) (by decide)

theorem EthVals_map_Mellanox_SN2700_D48C8 :
    EthVals map_Mellanox_SN2700_D48C8 := by
  refine foldl_inv EthVals _ _ _ ?_ ?_
  · refine foldl_inv EthVals _ _ _ EthVals_nil ?_
    intro m i hi hm
    rcases List.mem_append.mp hi with h | h
    · rcases List.mem_append.mp h with h' | h'
      · exact EthVals_dinsert m _ i (pyRange_lower 0 24 2 (by norm_num) i h') hm
      · exact EthVals_dinsert m _ i
          (by have := pyRange_lower 40 88 2 (by norm_num) i h'; omega) hm
    · exact EthVals_dinsert m _ i
        (by have := pyRange_lower 104 128 2 (by norm_num) i h; omega) hm
  · intro m i hi hm
    rcases List.mem_append.mp hi with h | h
    · exact EthVals_dinsert m _ i
        (by have := pyRange_lower 24 40 4 (by norm_num) i h; omega) hm
    · exact EthVals_dinsert m _ i
        (by have := pyRange_lower 88 104 4 (by norm_num) i h; omega) hm

theorem ne_nil_map_Mellanox_SN2700_D48C8 : map_Mellanox_SN2700_D48C8 ≠ [] := by
  unfold map_Mellanox_SN2700_D48C8
  exact foldl_dinsert_ne_nil _ _ _ (fun m b => ne_nil_dinsert _ _ _) (by decide)

theorem EthVals_map_Mellanox_SN2700 : EthVals map_Mellanox_SN2700 := by
  refine foldl_inv EthVals _ _ _ EthVals_nil ?_
  intro m i hi hm
  exact EthVals_dinsert m _ _
    (by have := pyRange_lower 1 33 1 (by norm_num) i hi; omega) hm

theorem ne_nil_map_Mellanox_SN2700 : map_Mellanox_SN2700 ≠ [] := by
  unfold map_Mellanox_SN2700
  exact foldl_dinsert_ne_nil _ _ _ (fun m b => ne_nil_dinsert _ _ _) (by decide)

theorem EthVals_map50G (all_ports s100G_ports : List Int)
    (hall : ∀ i ∈ all_ports, 1 ≤ i) (h100 : ∀ i ∈ s100G_ports, 1 ≤ i) :
    EthVals (_port_alias_to_name_map_50G all_ports s100G_ports) := by
  refine foldl_inv EthVals _ _ _ ?_ ?_
  · refine foldl_inv EthVals _ _ _ EthVals_nil ?_
    intro m i hi hm
    have h1 : 1 ≤ i := hall i (pySetDiff_subset all_ports s100G_ports i hi)
    exact EthVals_dinsert _ _ _ (by omega)
      (EthVals_dinsert m _ _ (by omega) hm)
  · intro m i hi hm
    have h1 : 1 ≤ i := h100 i hi
    exact EthVals_dinsert m _ _ (by omega) hm

theorem ne_nil_map50G (all_ports s100G_ports : List Int)
    (h : s100G_ports ≠ []) :
    _port_alias_to_name_map_50G all_ports s100G_ports ≠ [] := by
  unfold _port_alias_to_name_map_50G
  exact foldl_dinsert_ne_nil _ _ _ (fun m b => ne_nil_dinsert _ _ _) h

theorem EthVals_map_Arista_7060CX_32S_D48C8 :
    EthVals map_Arista_7060CX_32S_D48C8 := by
  refine EthVals_map50G _ _ ?_ ?_
  · intro i hi
    exact pyRange_lower 1 33 1 (by norm_num) i hi
  · intro i hi
    rcases List.mem_append.mp hi with h | h
    · have := pyRange_lower 7 11 1 (by norm_num) i h
      omega
    · have := pyRange_lower 23 27 1 (by norm_num) i h
      omega

theorem ne_nil_map_Arista_7060CX_32S_D48C8 :
    map_Arista_7060CX_32S_D48C8 ≠ [] :=
  ne_nil_map50G _ _ (by decide)

theorem EthVals_map_Arista_7260CX3_D108C8 :
    EthVals map_Arista_7260CX3_D108C8 := by
  refine EthVals_map50G _ _ ?_ ?_
  · intro i hi
    exact pyRange_lower 1 65 1 (by norm_num) i hi
  · intro i hi
    have := pyRange_lower 13 21 1 (by norm_num) i hi
    omega

theorem ne_nil_map_Arista_7260CX3_D108C8 :
    map_Arista_7260CX3_D108C8 ≠ [] :=
  ne_nil_map50G _ _ (by decide)

theorem EthVals_map_INGRASYS_S9100_C32 : EthVals map_INGRASYS_S9100_C32 := by
  refine foldl_inv EthVals _ _ _ EthVals_nil ?_
  intro m i hi hm
  exact EthVals_dinsert m _ _
    (by have := pyRange_lower 1 33 1 (by norm_num) i hi; omega) hm

theorem ne_nil_map_INGRASYS_S9100_C32 : map_INGRASYS_S9100_C32 ≠ [] := by
  unfold map_INGRASYS_S9100_C32
  exact foldl_dinsert_ne_nil _ _ _ (fun m b => ne_nil_dinsert _ _ _) (by decide)

theorem EthVals_map_INGRASYS_S9100_C32_dup :
    EthVals map_INGRASYS_S9100_C32_dup := by
  refine foldl_inv EthVals _ _ _ EthVals_nil ?_
  intro m i hi hm
  exact EthVals_dinsert m _ _
    (by have := pyRange_lower 1 33 1 (by norm_num) i hi; omega) hm

theorem ne_nil_map_INGRASYS_S9100_C32_dup : map_INGRASYS_S9100_C32_dup ≠ [] := by
  unfold map_INGRASYS_S9100_C32_dup
  exact foldl_dinsert_ne_nil _ _ _ (fun m b => ne_nil_dinsert _ _ _) (by decide)

theorem EthVals_map_INGRASYS_S8900_54XC : EthVals map_INGRASYS_S8900_54XC := by
  refine foldl_inv EthVals _ _ _ ?_ ?_
  · refine foldl_inv EthVals _ _ _ EthVals_nil ?_
    intro m i hi hm
    exact EthVals_dinsert m _ _
      (by have := pyRange_lower 1 49 1 (by norm_num) i hi; omega) hm
  · intro m i hi hm
    exact EthVals_dinsert m _ _
      (by have := pyRange_lower 49 55 1 (by norm_num) i hi; omega) hm

theorem ne_nil_map_INGRASYS_S8900_54XC : map_INGRASYS_S8900_54XC ≠ [] := by
  unfold map_INGRASYS_S8900_54XC
  exact foldl_dinsert_ne_nil _ _ _ (fun m b => ne_nil_dinsert _ _ _) (by decide)

theorem EthVals_map_INGRASYS_S8900_64XC : EthVals map_INGRASYS_S8900_64XC := by
  refine foldl_inv EthVals _ _ _ ?_ ?_
  · refine foldl_inv EthVals _ _ _ EthVals_nil ?_
    intro m i hi hm
    exact EthVals_dinsert m _ _
      (by have := pyRange_lower 1 49 1 (by norm_num) i hi; omega) hm
  · intro m i hi hm
    exact EthVals_dinsert m _ _
      (by have := pyRange_lower 49 65 1 (by norm_num) i hi; omega) hm

theorem ne_nil_map_INGRASYS_S8900_64XC : map_INGRASYS_S8900_64XC ≠ [] := by
  unfold map_INGRASYS_S8900_64XC
  exact foldl_dinsert_ne_nil _ _ _ (fun m b => ne_nil_dinsert _ _ _) (by decide)

theorem EthVals_map_Accton_AS7712_32X : EthVals map_Accton_AS7712_32X := by
  refine foldl_inv EthVals _ _ _ EthVals_nil ?_
  intro m i hi hm
  exact EthVals_dinsert m _ _
    (by have := pyRange_lower 1 33 1 (by norm_num) i hi; omega) hm

theorem ne_nil_map_Accton_AS7712_32X : map_Accton_AS7712_32X ≠ [] := by
  unfold map_Accton_AS7712_32X
  exact foldl_dinsert_ne_nil _ _ _ (fun m b => ne_nil_dinsert _ _ _) (by decide)

theorem EthVals_map_Celestica_DX010_C32 : EthVals map_Celestica_DX010_C32 := by
  refine foldl_inv EthVals _ _ _ EthVals_nil ?_
  intro m i hi hm
  exact EthVals_dinsert m _ _
    (by have := pyRange_lower 1 33 1 (by norm_num) i hi; omega) hm

theorem ne_nil_map_Celestica_DX010_C32 : map_Celestica_DX010_C32 ≠ [] := by
  unfold map_Celestica_DX010_C32
  exact foldl_dinsert_ne_nil _ _ _ (fun m b => ne_nil_dinsert _ _ _) (by decide)

theorem EthVals_map_Seastone_DX010 : EthVals map_Seastone_DX010 := by
  refine foldl_inv EthVals _ _ _ EthVals_nil ?_
  intro m i hi hm
  exact EthVals_dinsert m _ _
    (by have := pyRange_lower 1 33 1 (by norm_num) i hi; omega) hm

theorem ne_nil_map_Seastone_DX010 : map_Seastone_DX010 ≠ [] := by
  unfold map_Seastone_DX010
  exact foldl_dinsert_ne_nil _ _ _ (fun m b => ne_nil_dinsert _ _ _) (by decide)

theorem EthVals_map_Celestica_E1031_T48S4 : EthVals map_Celestica_E1031_T48S4 := by
  refine foldl_inv EthVals _ _ _ EthVals_nil ?_
  intro m i hi hm
  exact EthVals_dinsert m _ _
    (by have := pyRange_lower 1 53 1 (by norm_num) i hi; omega) hm

theorem ne_nil_map_Celestica_E1031_T48S4 : map_Celestica_E1031_T48S4 ≠ [] := by
  unfold map_Celestica_E1031_T48S4
  exact foldl_dinsert_ne_nil _ _ _ (fun m b => ne_nil_dinsert _ _ _) (by decide)

theorem EthVals_ethIdentityMap (lo hi step : Int) (hlo : 0 ≤ lo)
    (hstep : 0 ≤ step) : EthVals (ethIdentityMap lo hi step) := by
  refine foldl_inv EthVals _ _ _ EthVals_nil ?_
  intro m i hi' hm
  exact EthVals_dinsert m _ i
    (by have := pyRange_lower lo hi step hstep i hi'; omega) hm

theorem ne_nil_ethIdentityMap (lo hi step : Int)
    (h : pyRange lo hi step ≠ []) : ethIdentityMap lo hi step ≠ [] := by
  unfold ethIdentityMap
  exact foldl_dinsert_ne_nil _ _ _ (fun m b => ne_nil_dinsert _ _ _) h

theorem EthVals_map_msft_multi_asic_vs : EthVals map_msft_multi_asic_vs := by
  refine foldl_inv EthVals _ _ _ EthVals_nil ?_
  intro m i hi hm
  exact EthVals_dinsert m _ _
    (by have := pyRange_lower 1 65 1 (by norm_num) i hi; omega) hm

theorem ne_nil_map_msft_multi_asic_vs : map_msft_multi_asic_vs ≠ [] := by
  unfold map_msft_multi_asic_vs
  exact foldl_dinsert_ne_nil _ _ _ (fun m b => ne_nil_dinsert _ _ _) (by decide)

theorem EthVals_map_msft_four_asic_vs : EthVals map_msft_four_asic_vs := by
  refine foldl_inv EthVals _ _ _ EthVals_nil ?_
  intro m i hi hm
  exact EthVals_dinsert m _ _
    (by have := pyRange_lower 1 9 1 (by norm_num) i hi; omega) hm

theorem ne_nil_map_msft_four_asic_vs : map_msft_four_asic_vs ≠ [] := by
  unfold map_msft_four_asic_vs
  exact foldl_dinsert_ne_nil _ _ _ (fun m b => ne_nil_dinsert _ _ _) (by decide)

theorem EthVals_map_B6510_48VS8CQ : EthVals map_B6510_48VS8CQ := by
  refine foldl_inv EthVals _ _ _ ?_ ?_
  · refine foldl_inv EthVals _ _ _ EthVals_nil ?_
    intro m i hi hm
    exact EthVals_dinsert m _ i
      (by have := pyRange_lower 1 49 1 (by norm_num) i hi; omega) hm
  · intro m i hi hm
    exact EthVals_dinsert m _ i
      (by have := pyRange_lower 49 57 1 (by norm_num) i hi; omega) hm

theorem ne_nil_map_B6510_48VS8CQ : map_B6510_48VS8CQ ≠ [] := by
  unfold map_B6510_48VS8CQ
  exact foldl_dinsert_ne_nil _ _ _ (fun m b => ne_nil_dinsert _ _ _) (by decide)

theorem EthVals_map_RA_B6910_64C : EthVals map_RA_B6910_64C := by
  refine foldl_inv EthVals _ _ _ EthVals_nil ?_
  intro m i hi hm
  exact EthVals_dinsert m _ i
    (by have := pyRange_lower 1 65 1 (by norm_num) i hi; omega) hm

theorem ne_nil_map_RA_B6910_64C : map_RA_B6910_64C ≠ [] := by
  unfold map_RA_B6910_64C
  exact foldl_dinsert_ne_nil _ _ _ (fun m b => ne_nil_dinsert _ _ _) (by decide)

/-! ## Claim C1 -/

/-- C1 counterexample: the SKU `Nokia-IXR7250E-SUP-10` has its own branch in
the static-table catalog (source lines 185-186), yet its returned alias map
is empty, refuting the claim that every catalog SKU yields a non-empty
alias map. -/
theorem spec_c1_counterexample :
    "Nokia-IXR7250E-SUP-10" ∈ staticCatalogSKUs ∧
      get_port_alias_to_name_map_fallback "Nokia-IXR7250E-SUP-10" = [] :=
  ⟨by decide, rfl⟩

/-- C1 (amended): for every hardware SKU with its own branch in the
static-table catalog, either the SKU is `Nokia-IXR7250E-SUP-10` and the
returned alias map is empty, or the returned alias map is non-empty and
every value in it is of the form `Ethernet<N>` with `N` a non-negative
integer. -/
theorem spec_c1_static_catalog (sku : String) (h : sku ∈ staticCatalogSKUs) :
    (sku = "Nokia-IXR7250E-SUP-10" ∧
        get_port_alias_to_name_map_fallback sku = []) ∨
      (get_port_alias_to_name_map_fallback sku ≠ [] ∧
        ∀ p ∈ get_port_alias_to_name_map_fallback sku,
          isEthernetName p.2 = true) := by
  fin_cases h
  · exact Or.inr ⟨ne_nil_map_Force10_S6000, EthVals_map_Force10_S6000⟩
  · exact Or.inr ⟨ne_nil_map_Force10_S6100, EthVals_map_Force10_S6100⟩
  · exact Or.inr ⟨ne_nil_map_Force10_Z9100, EthVals_map_Force10_Z9100⟩
  · exact Or.inr ⟨ne_nil_map_DellEMC_Z9332f_M_O16C64, EthVals_map_DellEMC_Z9332f_M_O16C64⟩
  · exact Or.inr ⟨ne_nil_map_DellEMC_Z9332f_O32, EthVals_map_DellEMC_Z9332f_O32⟩
  · exact Or.inr ⟨ne_nil_map_Arista_7050_QX32, EthVals_map_Arista_7050_QX32⟩
  · exact Or.inr ⟨ne_nil_map_Arista_7050_QX_32S, EthVals_map_Arista_7050_QX_32S⟩
  · exact Or.inr ⟨ne_nil_map_Arista_7280CR3_C40, EthVals_map_Arista_7280CR3_C40⟩
  · exact Or.inr ⟨ne_nil_ethSlash1Map 1 65 (by decide), EthVals_ethSlash1Map 1 65 (by norm_num)⟩
  · exact Or.inr ⟨ne_nil_ethSlash1Map 1 65 (by decide), EthVals_ethSlash1Map 1 65 (by norm_num)⟩
  · exact Or.inr ⟨ne_nil_ethSlash1Map 1 65 (by decide), EthVals_ethSlash1Map 1 65 (by norm_num)⟩
  · exact Or.inr ⟨ne_nil_ethSlash1Map 1 33 (by decide), EthVals_ethSlash1Map 1 33 (by norm_num)⟩
  · exact Or.inr ⟨ne_nil_ethSlash1Map 1 33 (by decide), EthVals_ethSlash1Map 1 33 (by norm_num)⟩
  · exact Or.inr ⟨ne_nil_ethSlash1Map 1 33 (by decide), EthVals_ethSlash1Map 1 33 (by norm_num)⟩
  · exact Or.inr ⟨ne_nil_ethSlash1Map 1 33 (by decide), EthVals_ethSlash1Map 1 33 (by norm_num)⟩
  · exact Or.inr ⟨ne_nil_ethSlash1Map 1 33 (by decide), EthVals_ethSlash1Map 1 33 (by norm_num)⟩
  · exact Or.inr ⟨ne_nil_map_Mellanox_SN2700_D40C8S8, EthVals_map_Mellanox_SN2700_D40C8S8⟩
  · exact Or.inr ⟨ne_nil_map_Mellanox_SN2700_D48C8, EthVals_map_Mellanox_SN2700_D48C8⟩
  · exact Or.inr ⟨ne_nil_map_Mellanox_SN2700, EthVals_map_Mellanox_SN2700⟩
  · exact Or.inr ⟨ne_nil_map_Mellanox_SN2700, EthVals_map_Mellanox_SN2700⟩
  · exact Or.inr ⟨ne_nil_map_Arista_7060CX_32S_D48C8, EthVals_map_Arista_7060CX_32S_D48C8⟩
  · exact Or.inr ⟨ne_nil_map_Arista_7260CX3_D108C8, EthVals_map_Arista_7260CX3_D108C8⟩
  · exact Or.inr ⟨ne_nil_ethSlash1Map 1 48 (by decide), EthVals_ethSlash1Map 1 48 (by norm_num)⟩
  · exact Or.inr ⟨ne_nil_ethSlash1Map 1 48 (by decide), EthVals_ethSlash1Map 1 48 (by norm_num)⟩
  · exact Or.inr ⟨ne_nil_map_INGRASYS_S9100_C32, EthVals_map_INGRASYS_S9100_C32⟩
  · exact Or.inr ⟨ne_nil_map_INGRASYS_S9100_C32_dup, EthVals_map_INGRASYS_S9100_C32_dup⟩
  · exact Or.inr ⟨ne_nil_map_INGRASYS_S9100_C32_dup, EthVals_map_INGRASYS_S9100_C32_dup⟩
  · exact Or.inr ⟨ne_nil_map_INGRASYS_S8900_54XC, EthVals_map_INGRASYS_S8900_54XC⟩
  · exact Or.inr ⟨ne_nil_map_INGRASYS_S8900_64XC, EthVals_map_INGRASYS_S8900_64XC⟩
  · exact Or.inr ⟨ne_nil_map_Accton_AS7712_32X, EthVals_map_Accton_AS7712_32X⟩
  · exact Or.inr ⟨ne_nil_map_Celestica_DX010_C32, EthVals_map_Celestica_DX010_C32⟩
  · exact Or.inr ⟨ne_nil_map_Seastone_DX010, EthVals_map_Seastone_DX010⟩
  · exact Or.inr ⟨ne_nil_map_Celestica_E1031_T48S4, EthVals_map_Celestica_E1031_T48S4⟩
  · exact Or.inr ⟨ne_nil_map_Celestica_E1031_T48S4, EthVals_map_Celestica_E1031_T48S4⟩
  · exact Or.inr ⟨ne_nil_map_Celestica_E1031_T48S4, EthVals_map_Celestica_E1031_T48S4⟩
  · exact Or.inr ⟨ne_nil_ethIdentityMap 0 52 1 (by decide), EthVals_ethIdentityMap 0 52 1 (by norm_num) (by norm_num)⟩
  · exact Or.inr ⟨ne_nil_ethIdentityMap 0 36 1 (by decide), EthVals_ethIdentityMap 0 36 1 (by norm_num) (by norm_num)⟩
  · exact Or.inl ⟨rfl, rfl⟩
  · exact Or.inr ⟨ne_nil_ethIdentityMap 0 256 8 (by decide), EthVals_ethIdentityMap 0 256 8 (by norm_num) (by norm_num)⟩
  · exact Or.inr ⟨ne_nil_ethIdentityMap 0 32 1 (by decide), EthVals_ethIdentityMap 0 32 1 (by norm_num) (by norm_num)⟩
  · exact Or.inr ⟨ne_nil_ethIdentityMap 0 36 1 (by decide), EthVals_ethIdentityMap 0 36 1 (by norm_num) (by norm_num)⟩
  · exact Or.inr ⟨ne_nil_ethIdentityMap 0 64 1 (by decide), EthVals_ethIdentityMap 0 64 1 (by norm_num) (by norm_num)⟩
  · exact Or.inr ⟨ne_nil_ethIdentityMap 0 48 1 (by decide), EthVals_ethIdentityMap 0 48 1 (by norm_num) (by norm_num)⟩
  · exact Or.inr ⟨ne_nil_ethIdentityMap 0 48 1 (by decide), EthVals_ethIdentityMap 0 48 1 (by norm_num) (by norm_num)⟩
  · exact Or.inr ⟨ne_nil_map_msft_multi_asic_vs, EthVals_map_msft_multi_asic_vs⟩
  · exact Or.inr ⟨ne_nil_map_msft_four_asic_vs, EthVals_map_msft_four_asic_vs⟩
  · exact Or.inr ⟨ne_nil_map_B6510_48VS8CQ, EthVals_map_B6510_48VS8CQ⟩
  · exact Or.inr ⟨ne_nil_map_B6510_48VS8CQ, EthVals_map_B6510_48VS8CQ⟩
  · exact Or.inr ⟨ne_nil_map_RA_B6910_64C, EthVals_map_RA_B6910_64C⟩

/-- C1 witness: `spec_c1_static_catalog` applied at the concrete SKU
`Force10-S6000`. -/
theorem spec_c1_witness :
    "Force10-S6000" ∈ staticCatalogSKUs ∧
      (("Force10-S6000" = "Nokia-IXR7250E-SUP-10" ∧
          get_port_alias_to_name_map_fallback "Force10-S6000" = []) ∨
        (get_port_alias_to_name_map_fallback "Force10-S6000" ≠ [] ∧
          ∀ p ∈ get_port_alias_to_name_map_fallback "Force10-S6000",
            isEthernetName p.2 = true)) :=
  ⟨by decide, spec_c1_static_catalog "Force10-S6000" (by decide)⟩

/-! ## Claim C2 -/

/-- The default mapping as worded by the spec: `Ethernet<i> -> Ethernet<i>`
for `i = 0, 4, 8, ..., 124`. -/
def defaultAliasMap : PyDict String :=
  (pyRange 0 128 4).map (fun i => ("Ethernet" ++ intStr i, "Ethernet" ++ intStr i))

/-- C2: for every hwsku string not matched by any branch of the static
catalog, the fallback path returns exactly the identity mapping
`Ethernet<i> -> Ethernet<i>` for `i = 0, 4, ..., 124` (and, being a total
function, raises nothing). -/
theorem spec_c2_unknown_sku (hwsku : String) (h : hwsku ∉ staticCatalogSKUs) :
    get_port_alias_to_name_map_fallback hwsku = defaultAliasMap := by
  have hs : ∀ l ∈ staticCatalogSKUs, ¬ hwsku = l := fun l hl he => h (he ▸ hl)
  unfold get_port_alias_to_name_map_fallback
  rw [if_neg (hs _ (by decide)), if_neg (hs _ (by decide)),
    if_neg (hs _ (by decide)), if_neg (hs _ (by decide)),
    if_neg (hs _ (by decide)), if_neg (hs _ (by decide)),
    if_neg (hs _ (by decide)), if_neg (hs _ (by decide))]
  rw [if_neg (by rintro (he | he | he) <;> exact hs _ (by decide) he)]
  rw [if_neg (by rintro (he | he | he | he | he) <;> exact hs _ (by decide) he)]
  rw [if_neg (hs _ (by decide)), if_neg (hs _ (by decide))]
  rw [if_neg (by rintro (he | he) <;> exact hs _ (by decide) he)]
  rw [if_neg (hs _ (by decide)), if_neg (hs _ (by decide))]
  rw [if_neg (by rintro (he | he) <;> exact hs _ (by decide) he)]
  rw [if_neg (hs _ (by decide))]
  rw [if_neg (by rintro (he | he | he) <;> exact hs _ (by decide) he)]
  rw [if_neg (hs _ (by decide)), if_neg (hs _ (by decide)),
    if_neg (hs _ (by decide)), if_neg (hs _ (by decide)),
    if_neg (hs _ (by decide))]
  rw [if_neg (by
    intro hm
    simp only [List.mem_cons, List.not_mem_nil, or_false] at hm
    rcases hm with he | he | he <;> exact hs _ (by decide) he)]
  rw [if_neg (hs _ (by decide)), if_neg (hs _ (by decide)),
    if_neg (hs _ (by decide)), if_neg (hs _ (by decide)),
    if_neg (hs _ (by decide)), if_neg (hs _ (by decide)),
    if_neg (hs _ (by decide))]
  rw [if_neg (by
    intro hm
    simp only [List.mem_cons, List.not_mem_nil, or_false] at hm
    rcases hm with he | he <;> exact hs _ (by decide) he)]
  rw [if_neg (by
    intro hm
    simp only [List.mem_cons, List.not_mem_nil, or_false] at hm
    exact hs _ (by decide) hm)]
  rw [if_neg (hs _ (by decide))]
  rw [if_neg (by rintro (he | he) <;> exact hs _ (by decide) he)]
  rw [if_neg (hs _ (by decide))]
  decide

/-- C2 witness: `spec_c2_unknown_sku` applied at the concrete unknown SKU
`totally-fake-sku-123`. -/
theorem spec_c2_witness :
    "totally-fake-sku-123" ∉ staticCatalogSKUs ∧
      get_port_alias_to_name_map_fallback "totally-fake-sku-123" = defaultAliasMap :=
  ⟨by decide, spec_c2_unknown_sku "totally-fake-sku-123" (by decide)⟩

/-! ## Claim C6 -/

set_option maxRecDepth 40000 in
/-- C6: for `INGRASYS-S9100-C32`, which appears in two separate `elif`
conditions (source lines 151 and 154), the first matching branch wins: the
fallback returns the first branch's map, that map is exactly
`Ethernet<i>/1 -> Ethernet<(i-1)*4>` for `i = 1..32`, and the duplicate
second branch would produce no different output. -/
theorem spec_c6_ingrasys_first_branch_wins :
    get_port_alias_to_name_map_fallback "INGRASYS-S9100-C32"
        = map_INGRASYS_S9100_C32 ∧
      map_INGRASYS_S9100_C32_dup = map_INGRASYS_S9100_C32 ∧
      map_INGRASYS_S9100_C32
        = (pyRange 1 33 1).map (fun i =>
            ("Ethernet" ++ intStr i ++ "/1", "Ethernet" ++ intStr ((i - 1) * 4))) :=
  ⟨rfl, rfl, by decide⟩

/-! ## Claim C9 -/

set_option maxRecDepth 40000 in
/-- C9: the static fallback path always returns empty asic-name and
port-index maps, and the allow-list SKUs `8800-LC-48H-O` and
`88-LC0-36FH-MO` receive in the fallback only the identity alias map over
`Ethernet0..Ethernet47`. -/
theorem spec_c9_fallback_triple :
    (∀ (hwsku : String) (asic_name : Option String),
      (get_port_alias_to_name_map none hwsku asic_name).2.1 = [] ∧
        (get_port_alias_to_name_map none hwsku asic_name).2.2 = []) ∧
      get_port_alias_to_name_map_fallback "8800-LC-48H-O"
        = (pyRange 0 48 1).map (fun i =>
            ("Ethernet" ++ intStr i, "Ethernet" ++ intStr i)) ∧
      get_port_alias_to_name_map_fallback "88-LC0-36FH-MO"
        = (pyRange 0 48 1).map (fun i =>
            ("Ethernet" ++ intStr i, "Ethernet" ++ intStr i)) :=
  ⟨fun _ _ => ⟨rfl, rfl⟩, by decide, by decide⟩

/-! ## Claim C4 -/

set_option maxRecDepth 40000 in
/-- C4: for `_port_alias_to_name_map_50G` with `all_ports = [1..32]` and
`s100G_ports = [7,8,9,10,23,24,25,26]`, each port not in `s100G_ports`
contributes exactly the two entries `Ethernet<i>/1` and `Ethernet<i>/3`,
each port in `s100G_ports` contributes exactly the one entry
`Ethernet<i>/1`, and the two port categories are disjoint. -/
theorem spec_c4_50G_helper_counts :
    (let all_ports : List Int :=
      [1, 2, 3, 4, 5, 6, 7, 8, 9, 10, 11, 12, 13, 14, 15, 16, 17, 18, 19,
       20, 21, 22, 23, 24, 25, 26, 27, 28, 29, 30, 31, 32]
     let s100G_ports : List Int := [7, 8, 9, 10, 23, 24, 25, 26]
     let m := _port_alias_to_name_map_50G all_ports s100G_ports
     (all_ports.all (fun i =>
       if s100G_ports.contains i then
         m.countP (fun p => p.1 == "Ethernet" ++ intStr i ++ "/1"
             || p.1 == "Ethernet" ++ intStr i ++ "/3") == 1
           && hasKey m ("Ethernet" ++ intStr i ++ "/1")
           && !hasKey m ("Ethernet" ++ intStr i ++ "/3")
       else
         m.countP (fun p => p.1 == "Ethernet" ++ intStr i ++ "/1"
             || p.1 == "Ethernet" ++ intStr i ++ "/3") == 2
           && hasKey m ("Ethernet" ++ intStr i ++ "/1")
           && hasKey m ("Ethernet" ++ intStr i ++ "/3"))
       && (pySetDiff all_ports s100G_ports).all
            (fun i => !s100G_ports.contains i))) = true := by
  decide

/-! ## Lemmas about `get_port_indices_for_asic` -/

/-- The front-end partition (local `front_end_port_name_list` of the
source function): names not containing `"BP"`. -/
def frontPorts (ports : List String) : List String :=
  ports.filter (fun p => !strIn "BP" p)

/-- The back-end partition (local `back_end_port_name_list`): names
containing `"BP"`. -/
def backPorts (ports : List String) : List String :=
  ports.filter (fun p => strIn "BP" p)

/-- The local `index_offset` of the source function. -/
def indexOffset (asic_id : Option Int) (ports : List String) : Int :=
  if pyTruthy asic_id then
    asic_id.getD 0 * ((frontPorts ports).length : Int)
  else 0

theorem gpi_eq (a : Option Int) (ports : List String) :
    get_port_indices_for_asic a ports
      = (pyEnumFrom (indexOffset a ports) (backPorts ports)).foldl
          (fun m p => dinsert m p.2 p.1)
          ((pyEnumFrom (indexOffset a ports) (frontPorts ports)).foldl
            (fun m p => dinsert m p.2 p.1) []) := rfl

theorem foldIns_skip (names : List String) (off : Int) (m : PyDict Int)
    (x : String) (hx : x ∉ names) :
    dget? ((pyEnumFrom off names).foldl (fun m p => dinsert m p.2 p.1) m) x
      = dget? m x := by
  induction names generalizing off m with
  | nil => rfl
  | cons n rest ih =>
    have hxn : x ≠ n := fun hc => hx (hc ▸ List.mem_cons_self n rest)
    have hxr : x ∉ rest := fun hc => hx (List.mem_cons_of_mem n hc)
    simp only [pyEnumFrom, List.foldl_cons]
    rw [ih _ _ hxr, dget?_dinsert_ne _ _ _ _ hxn]

theorem foldIns_get (names : List String) (hnd : names.Nodup) (off : Int)
    (m : PyDict Int) (i : Nat) (h : i < names.length) :
    dget? ((pyEnumFrom off names).foldl (fun m p => dinsert m p.2 p.1) m)
        (names.get ⟨i, h⟩)
      = some (off + (i : Int)) := by
  induction names generalizing off m i with
  | nil => simp at h
  | cons n rest ih =>
    obtain ⟨hn, hrest⟩ := List.nodup_cons.mp hnd
    cases i with
    | zero =>
      simp only [pyEnumFrom, List.foldl_cons, List.get]
      rw [foldIns_skip rest (off + 1) _ n hn, dget?_dinsert_self]
      simp
    | succ j =>
      simp only [pyEnumFrom, List.foldl_cons, List.get]
      rw [ih hrest (off + 1) _ j (by simpa using h)]
      congr 1
      push_cast
      ring

theorem foldIns_hasKey (names : List String) (off : Int) (m : PyDict Int)
    (x : String) :
    hasKey ((pyEnumFrom off names).foldl (fun m p => dinsert m p.2 p.1) m) x
        = true
      ↔ (hasKey m x = true ∨ x ∈ names) := by
  induction names generalizing off m with
  | nil => simp [pyEnumFrom]
  | cons n rest ih =>
    simp only [pyEnumFrom, List.foldl_cons]
    rw [ih, hasKey_dinsert]
    simp only [Bool.or_eq_true, beq_iff_eq, List.mem_cons]
    constructor
    · rintro ((h | h) | h)
      · exact Or.inl h
      · exact Or.inr (Or.inl h.symm)
      · exact Or.inr (Or.inr h)
    · rintro (h | h | h)
      · exact Or.inl (Or.inl h)
      · exact Or.inl (Or.inr h.symm)
      · exact Or.inr h

theorem frontPorts_not_mem_back (ports : List String) (x : String)
    (hx : x ∈ frontPorts ports) : x ∉ backPorts ports := by
  intro hc
  have h1 := (List.mem_filter.mp hx).2
  have h2 := (List.mem_filter.mp hc).2
  rw [h2] at h1
  simp at h1

theorem gpi_front_lookup (a : Option Int) (ports : List String)
    (hnd : ports.Nodup) (i : Nat) (h : i < (frontPorts ports).length) :
    dget? (get_port_indices_for_asic a ports) ((frontPorts ports).get ⟨i, h⟩)
      = some (indexOffset a ports + (i : Int)) := by
  rw [gpi_eq]
  have hmem : (frontPorts ports).get ⟨i, h⟩ ∈ frontPorts ports :=
    List.get_mem _ _ h
  rw [foldIns_skip _ _ _ _ (frontPorts_not_mem_back ports _ hmem)]
  exact foldIns_get _ (hnd.filter _) _ _ i h

theorem gpi_back_lookup (a : Option Int) (ports : List String)
    (hnd : ports.Nodup) (i : Nat) (h : i < (backPorts ports).length) :
    dget? (get_port_indices_for_asic a ports) ((backPorts ports).get ⟨i, h⟩)
      = some (indexOffset a ports + (i : Int)) := by
  rw [gpi_eq]
  exact foldIns_get _ (hnd.filter _) _ _ i h

theorem gpi_hasKey (a : Option Int) (ports : List String) (x : String) :
    hasKey (get_port_indices_for_asic a ports) x = true ↔ x ∈ ports := by
  rw [gpi_eq, foldIns_hasKey, foldIns_hasKey]
  simp only [hasKey_nil, Bool.false_eq_true, false_or]
  constructor
  · rintro (h | h)
    · exact (List.mem_filter.mp h).1
    · exact (List.mem_filter.mp h).1
  · intro h
    cases hbp : strIn "BP" x with
    | false =>
      exact Or.inl (List.mem_filter.mpr ⟨h, by simp [hbp]⟩)
    | true =>
      exact Or.inr (List.mem_filter.mpr ⟨h, by simp [hbp]⟩)

/-! ## Claim C3 -/

/-- C3: `get_port_indices_for_asic` partitions the input into front-end
names (no `"BP"`) and back-end names (with `"BP"`), keeping relative
order; with `offset = int(asic_id) * |front|` when `asic_id` is truthy and
`0` otherwise, the k-th front-end name is mapped to `offset + k` and the
k-th back-end name is also mapped to `offset + k`; in particular for
`asic_id = 1` and `["Ethernet0", "Ethernet4", "Ethernet0-BP"]` the result
is `{Ethernet0: 2, Ethernet4: 3, Ethernet0-BP: 2}`, and for
`asic_id = None` the offset is `0` regardless of the partition sizes. -/
theorem spec_c3_index_assignment :
    (∀ (asic_id : Option Int) (ports : List String), ports.Nodup →
      (∀ (i : Nat) (h : i < (frontPorts ports).length),
        dget? (get_port_indices_for_asic asic_id ports)
            ((frontPorts ports).get ⟨i, h⟩)
          = some (indexOffset asic_id ports + (i : Int))) ∧
      (∀ (i : Nat) (h : i < (backPorts ports).length),
        dget? (get_port_indices_for_asic asic_id ports)
            ((backPorts ports).get ⟨i, h⟩)
          = some (indexOffset asic_id ports + (i : Int)))) ∧
    (∀ (asic_id : Option Int) (ports : List String), pyTruthy asic_id = true →
      indexOffset asic_id ports
        = asic_id.getD 0 * ((frontPorts ports).length : Int)) ∧
    (∀ ports : List String, indexOffset none ports = 0) ∧
    get_port_indices_for_asic (some 1) ["Ethernet0", "Ethernet4", "Ethernet0-BP"]
      = [("Ethernet0", 2), ("Ethernet4", 3), ("Ethernet0-BP", 2)] :=
  ⟨fun a ports hnd =>
      ⟨gpi_front_lookup a ports hnd, gpi_back_lookup a ports hnd⟩,
    fun a ports ha => by unfold indexOffset; rw [if_pos ha],
    fun _ => rfl,
    by decide⟩

/-- C3 witness: `spec_c3_index_assignment` applied at `asic_id = 1` and
`["Ethernet0", "Ethernet4", "Ethernet0-BP"]`, front-end position `0`. -/
theorem spec_c3_witness :
    dget? (get_port_indices_for_asic (some 1)
        ["Ethernet0", "Ethernet4", "Ethernet0-BP"]) "Ethernet0" = some 2 := by
  have h := (spec_c3_index_assignment.1 (some 1)
    ["Ethernet0", "Ethernet4", "Ethernet0-BP"] (by decide)).1 0 (by decide)
  exact h

/-! ## Claim C5 -/

theorem headI_get (l : List String) (h : 0 < l.length) :
    l.headI = l.get ⟨0, h⟩ := by
  cases l with
  | nil => simp at h
  | cons a as => rfl

/-- C5: whenever both partitions are non-empty and the input names are
distinct, the first front-end name and the first back-end name are two
different keys that receive the same index (the shared starting offset),
so the returned mapping has duplicated index values. -/
theorem spec_c5_offset_collision (asic_id : Option Int) (ports : List String)
    (hnd : ports.Nodup) (hf : frontPorts ports ≠ []) (hb : backPorts ports ≠ []) :
    (frontPorts ports).headI ≠ (backPorts ports).headI ∧
      dget? (get_port_indices_for_asic asic_id ports) ((frontPorts ports).headI)
        = some (indexOffset asic_id ports) ∧
      dget? (get_port_indices_for_asic asic_id ports) ((backPorts ports).headI)
        = some (indexOffset asic_id ports) := by
  have h0f : 0 < (frontPorts ports).length := List.length_pos.mpr hf
  have h0b : 0 < (backPorts ports).length := List.length_pos.mpr hb
  rw [headI_get _ h0f, headI_get _ h0b]
  refine ⟨?_, ?_, ?_⟩
  · intro hc
    have hmf : (frontPorts ports).get ⟨0, h0f⟩ ∈ frontPorts ports :=
      List.get_mem _ _ h0f
    have hmb : (backPorts ports).get ⟨0, h0b⟩ ∈ backPorts ports :=
      List.get_mem _ _ h0b
    rw [← hc] at hmb
    exact frontPorts_not_mem_back ports _ hmf hmb
  · have := gpi_front_lookup asic_id ports hnd 0 h0f
    simpa using this
  · have := gpi_back_lookup asic_id ports hnd 0 h0b
    simpa using this

/-- C5 witness: `spec_c5_offset_collision` applied at `asic_id = 1` and
`["Ethernet0", "Ethernet4", "Ethernet0-BP"]`. -/
theorem spec_c5_witness :
    (frontPorts ["Ethernet0", "Ethernet4", "Ethernet0-BP"]).headI
        ≠ (backPorts ["Ethernet0", "Ethernet4", "Ethernet0-BP"]).headI ∧
      dget? (get_port_indices_for_asic (some 1)
          ["Ethernet0", "Ethernet4", "Ethernet0-BP"])
          ((frontPorts ["Ethernet0", "Ethernet4", "Ethernet0-BP"]).headI)
        = some (indexOffset (some 1) ["Ethernet0", "Ethernet4", "Ethernet0-BP"]) ∧
      dget? (get_port_indices_for_asic (some 1)
          ["Ethernet0", "Ethernet4", "Ethernet0-BP"])
          ((backPorts ["Ethernet0", "Ethernet4", "Ethernet0-BP"]).headI)
        = some (indexOffset (some 1) ["Ethernet0", "Ethernet4", "Ethernet0-BP"]) :=
  spec_c5_offset_collision (some 1) ["Ethernet0", "Ethernet4", "Ethernet0-BP"]
    (by decide) (by decide) (by decide)

/-! ## Key injectivity for the 50G helper -/

theorem ethKey_inj (i j : Int) (s : String)
    (h : "Ethernet" ++ intStr i ++ s = "Ethernet" ++ intStr j ++ s) : i = j := by
  have hd : ("Ethernet".data ++ (intStr i).data) ++ s.data
      = ("Ethernet".data ++ (intStr j).data) ++ s.data := congrArg String.data h
  rw [List.append_assoc, List.append_assoc] at hd
  have h2 := List.append_cancel_left hd
  have h3 := (List.append_inj' h2 rfl).1
  exact intStr_inj i j (String.ext h3)

theorem ethKey13_ne (i j : Int) :
    "Ethernet" ++ intStr i ++ "/1" ≠ "Ethernet" ++ intStr j ++ "/3" := by
  intro h
  have hd : ("Ethernet".data ++ (intStr i).data) ++ ("/1" : String).data
      = ("Ethernet".data ++ (intStr j).data) ++ ("/3" : String).data :=
    congrArg String.data h
  rw [List.append_assoc, List.append_assoc] at hd
  have h2 := List.append_cancel_left hd
  have h3 := (List.append_inj' h2 (by rfl)).2
  exact absurd h3 (by decide)

/-! ## Lookup lemmas for the two loops of `_port_alias_to_name_map_50G` -/

theorem map50G_eq (all_ports s100G_ports : List Int) :
    _port_alias_to_name_map_50G all_ports s100G_ports
      = s100G_ports.foldl (fun m i =>
          dinsert m ("Ethernet" ++ intStr i ++ "/1")
            ("Ethernet" ++ intStr ((i - 1) * 4)))
          ((pySetDiff all_ports s100G_ports).foldl (fun m i =>
            dinsert (dinsert m ("Ethernet" ++ intStr i ++ "/1")
                ("Ethernet" ++ intStr ((i - 1) * 4)))
              ("Ethernet" ++ intStr i ++ "/3")
              ("Ethernet" ++ intStr ((i - 1) * 4 + 2))) []) := rfl

theorem fold100_skip (s100 : List Int) (m : PyDict String) (x : String)
    (hx : ∀ j ∈ s100, "Ethernet" ++ intStr j ++ "/1" ≠ x) :
    dget? (s100.foldl (fun m i =>
        dinsert m ("Ethernet" ++ intStr i ++ "/1")
          ("Ethernet" ++ intStr ((i - 1) * 4))) m) x = dget? m x := by
  induction s100 generalizing m with
  | nil => rfl
  | cons j rest ih =>
    simp only [List.foldl_cons]
    rw [ih _ (fun j' hj' => hx j' (List.mem_cons_of_mem j hj'))]
    exact dget?_dinsert_ne _ _ _ _
      (fun hc => hx j (List.mem_cons_self j rest) hc.symm)

theorem fold100_found (s100 : List Int) (m : PyDict String) (i : Int)
    (hi : i ∈ s100) :
    dget? (s100.foldl (fun m i =>
        dinsert m ("Ethernet" ++ intStr i ++ "/1")
          ("Ethernet" ++ intStr ((i - 1) * 4))) m)
        ("Ethernet" ++ intStr i ++ "/1")
      = some ("Ethernet" ++ intStr ((i - 1) * 4)) := by
  induction s100 generalizing m with
  | nil => simp at hi
  | cons j rest ih =>
    simp only [List.foldl_cons]
    by_cases hir : i ∈ rest
    · exact ih _ hir
    · have hij : j = i := by
        rcases List.mem_cons.mp hi with h | h
        · exact h.symm
        · exact absurd h hir
      subst hij
      rw [fold100_skip rest _ _
        (fun j' hj' hc => hir ((ethKey_inj j' j "/1" hc) ▸ hj'))]
      exact dget?_dinsert_self _ _ _

theorem fold50_skip (s50 : List Int) (m : PyDict String) (x : String)
    (hx : ∀ j ∈ s50, "Ethernet" ++ intStr j ++ "/1" ≠ x
      ∧ "Ethernet" ++ intStr j ++ "/3" ≠ x) :
    dget? (s50.foldl (fun m i =>
        dinsert (dinsert m ("Ethernet" ++ intStr i ++ "/1")
            ("Ethernet" ++ intStr ((i - 1) * 4)))
          ("Ethernet" ++ intStr i ++ "/3")
          ("Ethernet" ++ intStr ((i - 1) * 4 + 2))) m) x = dget? m x := by
  induction s50 generalizing m with
  | nil => rfl
  | cons j rest ih =>
    simp only [List.foldl_cons]
    rw [ih _ (fun j' hj' => hx j' (List.mem_cons_of_mem j hj'))]
    have h1 := (hx j (List.mem_cons_self j rest)).1
    have h3 := (hx j (List.mem_cons_self j rest)).2
    rw [dget?_dinsert_ne _ _ _ _ (fun hc => h3 hc.symm)]
    exact dget?_dinsert_ne _ _ _ _ (fun hc => h1 hc.symm)

theorem fold50_found1 (s50 : List Int) (m : PyDict String) (i : Int)
    (hi : i ∈ s50) :
    dget? (s50.foldl (fun m i =>
        dinsert (dinsert m ("Ethernet" ++ intStr i ++ "/1")
            ("Ethernet" ++ intStr ((i - 1) * 4)))
          ("Ethernet" ++ intStr i ++ "/3")
          ("Ethernet" ++ intStr ((i - 1) * 4 + 2))) m)
        ("Ethernet" ++ intStr i ++ "/1")
      = some ("Ethernet" ++ intStr ((i - 1) * 4)) := by
  induction s50 generalizing m with
  | nil => simp at hi
  | cons j rest ih =>
    simp only [List.foldl_cons]
    by_cases hir : i ∈ rest
    · exact ih _ hir
    · have hij : j = i := by
        rcases List.mem_cons.mp hi with h | h
        · exact h.symm
        · exact absurd h hir
      subst hij
      rw [fold50_skip rest _ _ (fun j' hj' =>
        ⟨fun hc => hir ((ethKey_inj j' j "/1" hc) ▸ hj'),
          fun hc => (ethKey13_ne j j') hc.symm⟩)]
      rw [dget?_dinsert_ne _ _ _ _ (ethKey13_ne j j)]
      exact dget?_dinsert_self _ _ _

theorem fold50_found3 (s50 : List Int) (m : PyDict String) (i : Int)
    (hi : i ∈ s50) :
    dget? (s50.foldl (fun m i =>
        dinsert (dinsert m ("Ethernet" ++ intStr i ++ "/1")
            ("Ethernet" ++ intStr ((i - 1) * 4)))
          ("Ethernet" ++ intStr i ++ "/3")
          ("Ethernet" ++ intStr ((i - 1) * 4 + 2))) m)
        ("Ethernet" ++ intStr i ++ "/3")
      = some ("Ethernet" ++ intStr ((i - 1) * 4 + 2)) := by
  induction s50 generalizing m with
  | nil => simp at hi
  | cons j rest ih =>
    simp only [List.foldl_cons]
    by_cases hir : i ∈ rest
    · exact ih _ hir
    · have hij : j = i := by
        rcases List.mem_cons.mp hi with h | h
        · exact h.symm
        · exact absurd h hir
      subst hij
      rw [fold50_skip rest _ _ (fun j' hj' =>
        ⟨fun hc => (ethKey13_ne j' j) hc,
          fun hc => hir ((ethKey_inj j' j "/3" hc) ▸ hj')⟩)]
      exact dget?_dinsert_self _ _ _

/-! ## Claim C10 -/

/-- C10: (1) for every list of distinct port names, the key set of
`get_port_indices_for_asic` is exactly the set of input names; (2) in
`_port_alias_to_name_map_50G`, every 50G port `i` (in `all_ports` but not
`s100G_ports`) maps `Ethernet<i>/1` to `Ethernet<(i-1)*4>` and
`Ethernet<i>/3` to `Ethernet<(i-1)*4+2>`, and every 100G port `i` maps
`Ethernet<i>/1` to `Ethernet<(i-1)*4>`. -/
theorem spec_c10_invariants :
    (∀ (asic_id : Option Int) (ports : List String), ports.Nodup →
      ∀ x : String,
        hasKey (get_port_indices_for_asic asic_id ports) x = true ↔ x ∈ ports) ∧
    (∀ (all_ports s100G_ports : List Int) (i : Int),
      (i ∈ all_ports → i ∉ s100G_ports →
        dget? (_port_alias_to_name_map_50G all_ports s100G_ports)
            ("Ethernet" ++ intStr i ++ "/1")
          = some ("Ethernet" ++ intStr ((i - 1) * 4)) ∧
        dget? (_port_alias_to_name_map_50G all_ports s100G_ports)
            ("Ethernet" ++ intStr i ++ "/3")
          = some ("Ethernet" ++ intStr ((i - 1) * 4 + 2))) ∧
      (i ∈ s100G_ports →
        dget? (_port_alias_to_name_map_50G all_ports s100G_ports)
            ("Ethernet" ++ intStr i ++ "/1")
          = some ("Ethernet" ++ intStr ((i - 1) * 4)))) := by
  constructor
  · intro asic_id ports _ x
    exact gpi_hasKey asic_id ports x
  · intro all_ports s100G_ports i
    constructor
    · intro hiall hino
      have hi50 : i ∈ pySetDiff all_ports s100G_ports := by
        unfold pySetDiff
        rw [List.mem_dedup]
        exact List.mem_filter.mpr ⟨hiall, by simpa using hino⟩
      constructor
      · rw [map50G_eq]
        rw [fold100_skip _ _ _ (fun j hj hc =>
          hino ((ethKey_inj j i "/1" hc) ▸ hj))]
        exact fold50_found1 _ _ i hi50
      · rw [map50G_eq]
        rw [fold100_skip _ _ _ (fun j hj hc => (ethKey13_ne j i) hc)]
        exact fold50_found3 _ _ i hi50
    · intro hi100
      rw [map50G_eq]
      exact fold100_found _ _ i hi100

/-- C10 witness: `spec_c10_invariants` applied at concrete inputs
(`asic_id = 1`, ports `["Ethernet0", "Ethernet0-BP"]`; 50G helper with
`all_ports = [1, 2]`, `s100G_ports = [2]`). -/
theorem spec_c10_witness :
    (hasKey (get_port_indices_for_asic (some 1) ["Ethernet0", "Ethernet0-BP"])
        "Ethernet0" = true ↔ "Ethernet0" ∈ ["Ethernet0", "Ethernet0-BP"]) ∧
      (dget? (_port_alias_to_name_map_50G [1, 2] [2])
          ("Ethernet" ++ intStr 1 ++ "/1")
        = some ("Ethernet" ++ intStr ((1 - 1) * 4))) ∧
      (dget? (_port_alias_to_name_map_50G [1, 2] [2])
          ("Ethernet" ++ intStr 2 ++ "/1")
        = some ("Ethernet" ++ intStr ((2 - 1) * 4))) :=
  ⟨spec_c10_invariants.1 (some 1) ["Ethernet0", "Ethernet0-BP"] (by decide)
      "Ethernet0",
    ((spec_c10_invariants.2 [1, 2] [2] 1).1 (by decide) (by decide)).1,
    (spec_c10_invariants.2 [1, 2] [2] 2).2 (by decide)⟩

/-! ## Claim C7 -/

/-- C7: with the metadata service unavailable (the `ImportError` path), two
calls of `get_port_alias_to_name_map` with the same `hwsku` yield identical
triples of maps — the function is a pure function of its inputs, and (the
`asic_name` argument feeding only the unavailable service) the result does
not depend on `asic_name` at all. -/
theorem spec_c7_deterministic :
    ∀ (hwsku₁ hwsku₂ : String) (a₁ a₂ : Option String), hwsku₁ = hwsku₂ →
      get_port_alias_to_name_map none hwsku₁ a₁
        = get_port_alias_to_name_map none hwsku₂ a₂ := by
  intro h1 h2 a1 a2 he
  subst he
  rfl

/-- C7 witness: `spec_c7_deterministic` applied at `Force10-S6000` with two
different `asic_name` values. -/
theorem spec_c7_witness :
    get_port_alias_to_name_map none "Force10-S6000" none
      = get_port_alias_to_name_map none "Force10-S6000" (some "asic0") :=
  spec_c7_deterministic "Force10-S6000" "Force10-S6000" none (some "asic0") rfl

/-! ## Claim C8 -/

theorem portsInfoStep_index_untouched (hwsku : String)
    (maps : PyDict String × PyDict String × PyDict Int)
    (r : String × PortData)
    (hno : hwsku ∉ HWSKU_WITH_PORT_INDEX_FROM_PORT_CONFIG) :
    (portsInfoStep hwsku maps r).2.2 = maps.2.2 := by
  obtain ⟨port, pd⟩ := r
  unfold portsInfoStep
  cases h : pd.index with
  | none => simp [h]
  | some idx => simp [h, hno]

theorem metadata_index_untouched (hwsku : String)
    (ports_info : List (String × PortData))
    (hno : hwsku ∉ HWSKU_WITH_PORT_INDEX_FROM_PORT_CONFIG) :
    ∀ maps, (ports_info.foldl (portsInfoStep hwsku) maps).2.2 = maps.2.2 := by
  induction ports_info with
  | nil => intro maps; rfl
  | cons r rest ih =>
    intro maps
    rw [List.foldl_cons, ih, portsInfoStep_index_untouched hwsku maps r hno]

theorem portsInfoStep_alias_mono (hwsku : String)
    (maps : PyDict String × PyDict String × PyDict Int)
    (r : String × PortData) (x : String)
    (h : hasKey maps.1 x = true) :
    hasKey (portsInfoStep hwsku maps r).1 x = true := by
  obtain ⟨port, pd⟩ := r
  unfold portsInfoStep
  cases ha : pd.aliasF with
  | none => simpa [ha] using h
  | some a => simp [ha, hasKey_dinsert, h]

theorem metadata_alias_mono (hwsku : String)
    (ports_info : List (String × PortData)) (x : String) :
    ∀ maps, hasKey maps.1 x = true →
      hasKey ((ports_info.foldl (portsInfoStep hwsku) maps)).1 x = true := by
  induction ports_info with
  | nil => intro maps h; exact h
  | cons r rest ih =>
    intro maps h
    rw [List.foldl_cons]
    exact ih _ (portsInfoStep_alias_mono hwsku maps r x h)

theorem portsInfoStep_asic_mono (hwsku : String)
    (maps : PyDict String × PyDict String × PyDict Int)
    (r : String × PortData) (x : String)
    (h : hasKey maps.2.1 x = true) :
    hasKey (portsInfoStep hwsku maps r).2.1 x = true := by
  obtain ⟨port, pd⟩ := r
  unfold portsInfoStep
  cases ha : pd.asic_port_name with
  | none => simpa [ha] using h
  | some a => simp [ha, hasKey_dinsert, h]

theorem metadata_asic_mono (hwsku : String)
    (ports_info : List (String × PortData)) (x : String) :
    ∀ maps, hasKey maps.2.1 x = true →
      hasKey ((ports_info.foldl (portsInfoStep hwsku) maps)).2.1 x = true := by
  induction ports_info with
  | nil => intro maps h; exact h
  | cons r rest ih =>
    intro maps h
    rw [List.foldl_cons]
    exact ih _ (portsInfoStep_asic_mono hwsku maps r x h)

theorem metadata_alias_aux (hwsku : String)
    (ports_info : List (String × PortData)) (port : String) (pd : PortData)
    (al : String) (hmem : (port, pd) ∈ ports_info)
    (ha : pd.aliasF = some al) :
    ∀ maps, hasKey ((ports_info.foldl (portsInfoStep hwsku) maps)).1 al = true := by
  induction ports_info with
  | nil => simp at hmem
  | cons r rest ih =>
    intro maps
    rw [List.foldl_cons]
    rcases List.mem_cons.mp hmem with he | hm
    · subst he
      refine metadata_alias_mono hwsku rest al _ ?_
      unfold portsInfoStep
      simp [ha, hasKey_dinsert]
    · exact ih hm _

theorem metadata_asic_aux (hwsku : String)
    (ports_info : List (String × PortData)) (port : String) (pd : PortData)
    (apn : String) (hmem : (port, pd) ∈ ports_info)
    (ha : pd.asic_port_name = some apn) :
    ∀ maps,
      hasKey ((ports_info.foldl (portsInfoStep hwsku) maps)).2.1 apn = true := by
  induction ports_info with
  | nil => simp at hmem
  | cons r rest ih =>
    intro maps
    rw [List.foldl_cons]
    rcases List.mem_cons.mp hmem with he | hm
    · subst he
      refine metadata_asic_mono hwsku rest apn _ ?_
      unfold portsInfoStep
      simp [ha, hasKey_dinsert]
    · exact ih hm _

/-- C8: in the metadata-driven path, (1) the port-name-to-index map is
empty for every hwsku outside the allow-list
`["8800-LC-48H-O", "88-LC0-36FH-MO"]`, even when records carry an `index`
field; (2) an `alias` field is recorded for any hwsku whenever present;
(3) an `asic_port_name` field is recorded for any hwsku whenever present;
(4) a record with all fields missing is skipped without error, leaving the
maps unchanged. -/
theorem spec_c8_metadata_path :
    (∀ (hwsku : String) (ports_info : List (String × PortData)),
      hwsku ∉ HWSKU_WITH_PORT_INDEX_FROM_PORT_CONFIG →
        (get_port_alias_to_name_map_metadata hwsku ports_info).2.2 = []) ∧
    (∀ (hwsku : String) (ports_info : List (String × PortData))
        (port : String) (pd : PortData) (al : String),
      (port, pd) ∈ ports_info → pd.aliasF = some al →
        hasKey (get_port_alias_to_name_map_metadata hwsku ports_info).1 al
          = true) ∧
    (∀ (hwsku : String) (ports_info : List (String × PortData))
        (port : String) (pd : PortData) (apn : String),
      (port, pd) ∈ ports_info → pd.asic_port_name = some apn →
        hasKey (get_port_alias_to_name_map_metadata hwsku ports_info).2.1 apn
          = true) ∧
    (∀ (hwsku : String) (maps : PyDict String × PyDict String × PyDict Int)
        (port : String),
      portsInfoStep hwsku maps (port, ⟨none, none, none⟩) = maps) :=
  ⟨fun hwsku ports_info hno =>
      metadata_index_untouched hwsku ports_info hno ([], [], []),
    fun hwsku ports_info port pd al hmem ha =>
      metadata_alias_aux hwsku ports_info port pd al hmem ha ([], [], []),
    fun hwsku ports_info port pd apn hmem ha =>
      metadata_asic_aux hwsku ports_info port pd apn hmem ha ([], [], []),
    fun hwsku maps port => by
      obtain ⟨m1, m2, m3⟩ := maps
      rfl⟩

/-- C8 witness: `spec_c8_metadata_path` applied to a one-record port table
carrying both an `alias` and an `index` field, under a hwsku outside the
allow-list. -/
theorem spec_c8_witness :
    ("some-other-sku" ∉ HWSKU_WITH_PORT_INDEX_FROM_PORT_CONFIG) ∧
      (get_port_alias_to_name_map_metadata "some-other-sku"
          [("Ethernet0", ⟨some "etp1", none, some 5⟩)]).2.2 = [] ∧
      hasKey (get_port_alias_to_name_map_metadata "some-other-sku"
          [("Ethernet0", ⟨some "etp1", none, some 5⟩)]).1 "etp1" = true :=
  ⟨by decide,
    spec_c8_metadata_path.1 "some-other-sku"
      [("Ethernet0", ⟨some "etp1", none, some 5⟩)] (by decide),
    spec_c8_metadata_path.2.1 "some-other-sku"
      [("Ethernet0", ⟨some "etp1", none, some 5⟩)] "Ethernet0"
      ⟨some "etp1", none, some 5⟩ "etp1" (List.mem_singleton.mpr rfl) rfl⟩
